import Mathlib

/-!
Verification of the probe-rs embedded-debug core against its specification.

This file gives a shallow embedding, in Lean 4, of the parts of the
repository that the specification's claims talk about:

* the ARM Memory Access Port facade
  (`src/probe-rs/src/architecture/arm/ap/memory_ap/mod.rs`);
* the DWARF unwinder, register file, stack-frame construction, variable
  and type resolver, and breakpoint mapping
  (`src/probe-rs/src/debug/mod.rs`).

Modelling conventions:

* Rust machine integers become `Nat` (or `Int` for signed values) with
  explicit reductions modulo `2 ^ w` exactly where the Rust code wraps or
  casts.  `u64::MAX` is written `u64Max`.
* Fallible Rust code (`Result`) becomes `Except`; Rust panics
  (`unimplemented!`, `todo!`, `unwrap` on `None`) and potential
  non-termination of the recursive DWARF walkers become an outer `Option`
  layer where `none` means "no defined result"; the recursion is driven by
  an explicit fuel parameter.
* gimli / object / std library values that the source merely consumes
  (DIE trees, attribute values, unwind rows, line-program rows, target
  memory) are modelled as explicit data carried by an environment record;
  the *logic* of the source functions over those values is translated
  line by line.
* The module `variable.rs` of the repository is declared (`mod variable`)
  but its source is not part of the reviewed tree, so the `Variable`
  data type and its few helpers are modelled from the specification's
  data-model section; every such definition carries a doc comment that
  starts with `Modelled from the spec:`.
-/

/-! ## Small integer helpers -/

/-- 2 ^ 32, the modulus of `u32` arithmetic. -/
def u32Mod : Nat := 4294967296

/-- 2 ^ 64, the modulus of `u64` arithmetic. -/
def u64Mod : Nat := 18446744073709551616

/-- `u32::MAX`. -/
def u32Max : Nat := 4294967295

/-- `u64::MAX`, used by the source as the "not in memory" sentinel. -/
def u64Max : Nat := 18446744073709551615

/-- Interpret an `Int` as a `u32` the way an `as u32` cast does
(two's-complement truncation). -/
def toU32 (x : Int) : Nat := (x.emod (u32Mod : Int)).toNat

/-- Interpret an `Int` as a `u64` the way an `as u64` cast does. -/
def toU64 (x : Int) : Nat := (x.emod (u64Mod : Int)).toNat

/-- Interpret a `Nat` holding a `u64` as an `i64` (`as i64` cast). -/
def toI64 (x : Nat) : Int :=
  if x < 9223372036854775808 then (x : Int) else (x : Int) - (u64Mod : Int)

/-- `u32::from_le_bytes` on a 4-byte buffer (bytes listed low to high). -/
def u32FromLeBytes (bs : List Nat) : Nat :=
  match bs with
  | [b0, b1, b2, b3] => b0 + b1 * 256 + b2 * 65536 + b3 * 16777216
  | _ => 0

/-- Clear bit 0 of a register value, as `pc & !1` does. -/
def clearBit0 (v : Nat) : Nat := v - v % 2

/-- Lowercase hexadecimal digits of `n`, most significant first. -/
def hexDigitsOf (n : Nat) : List Char := Nat.toDigits 16 n

/-- The Rust formatting `{:#010x}` (as a comment: hash-zero-ten-x): a
`0x` prefix followed by the lowercase hex digits zero-padded to at least
eight digits. -/
def hexFmt010 (n : Nat) : String :=
  let ds := hexDigitsOf n
  "0x" ++ String.mk (List.replicate (8 - ds.length) '0') ++ String.mk ds

/-! ## Error taxonomy

`ArmError` is defined outside the reviewed tree; the variants used by
`memory_ap/mod.rs` are modelled, payloads dropped.  `DebugError` is the
error enum of `debug/mod.rs`; payloads other than the `Other` message are
dropped. -/

inductive ArmError where
  | outOfBounds
  | wrongApType
  | registerParse
  | otherArm
deriving DecidableEq, Repr

inductive DebugError where
  | ioErr
  | debugData
  | parseErr
  | nonUtf8
  | probe
  | charConversion
  | intConversion
  | other (msg : String)
deriving DecidableEq, Repr

/-! ## Memory Access Port facade

From `src/probe-rs/src/architecture/arm/ap/memory_ap/mod.rs`.  The
`MemoryApType` trait methods `set_target_address` and `base_address` are
default methods over the per-variant capability flags; the per-variant
flag values live in the `amba_*` modules outside the reviewed tree, so
the embedding is parametric in the flag, exactly like the trait code. -/

/-- A write of an AP register performed through the interface. -/
inductive ApWrite where
  | tar2 (address : Nat)
  | tar (address : Nat)
deriving DecidableEq, Repr

/-- True when the write targets the `TAR` register. -/
def ApWrite.isTar : ApWrite → Bool
  | .tar _ => true
  | .tar2 _ => false

/-- `MemoryApType::set_target_address`.  The returned list is the trace
of AP-register writes issued through the interface, in order; the
interface itself is the external DAP transport (out of scope), so writes
are modelled as always succeeding. -/
def setTargetAddress (hasLargeAddressExtension : Bool) (address : Nat) :
    List ApWrite × Except ArmError Unit :=
  let addressLower := address % u32Mod
  let addressUpper := (address / u32Mod) % u32Mod
  if hasLargeAddressExtension then
    ([ApWrite.tar2 addressUpper, ApWrite.tar addressLower], Except.ok ())
  else if addressUpper ≠ 0 then
    ([], Except.error ArmError.outOfBounds)
  else
    ([ApWrite.tar addressLower], Except.ok ())

/-- The `Format` field of the `BASE` register. -/
inductive BaseAddrFormat where
  | legacy
  | adiV5
deriving DecidableEq, Repr

/-- Modelled from the spec: the `BASE` AP register (its struct lives in
`memory_ap/registers.rs`, outside the reviewed tree).  `BASEADDR` holds
bits 31:12 of the register word (so it is below `2 ^ 20`), and `Format`
distinguishes the legacy layout from the ADIv5 wide layout. -/
structure BaseReg where
  format : BaseAddrFormat
  baseaddr : Nat
deriving DecidableEq, Repr

/-- Modelled from the spec: the `BASE2` AP register holding the upper 32
bits of a wide base address. -/
structure Base2Reg where
  baseaddr : Nat
deriving DecidableEq, Repr

/-- `MemoryApType::base_address`.  The two register reads are modelled by
the concrete register values the interface would return.  The inner
shift `BASEADDR << 12` happens at `u32` width in the source, hence the
reduction modulo `2 ^ 32`. -/
def baseAddress (base : BaseReg) (base2 : Base2Reg) : Nat :=
  let hi := if base.format = BaseAddrFormat.adiV5
    then (base2.baseaddr % u32Mod) <<< 32
    else 0
  hi ||| ((base.baseaddr <<< 12) % u32Mod)

/-! ## Architecture and the register file

From `probe-rs-target` and `debug/mod.rs` (`Registers`). -/

inductive Architecture where
  | arm
  | avr
  | riscv
deriving DecidableEq, Repr

/-- The `Registers` struct: a map from DWARF register number to `u32`
value (the `HashMap` is modelled extensionally) plus the architecture. -/
structure Registers where
  values : Nat → Option Nat
  architecture : Architecture

/-- `HashMap::insert`. -/
def regInsert (m : Nat → Option Nat) (k v : Nat) : Nat → Option Nat :=
  fun j => if j = k then some v else m j

/-- `HashMap::remove`. -/
def regRemove (m : Nat → Option Nat) (k : Nat) : Nat → Option Nat :=
  fun j => if j = k then none else m j

/-- The live core, as consumed by `debug/mod.rs`: target-memory reads,
core-register reads (both fallible: `none` is the `Err` case) and the
architecture.  `numPlatformRegisters` is the length of the platform
register file; `platform_register(i)` is modelled as the identity on the
index. -/
structure CoreM where
  readMem : Nat → Nat → Option (List Nat)
  readReg : Nat → Option Nat
  architecture : Architecture
  numPlatformRegisters : Nat

/-- The loop body of `Registers::from_core`: store a successful read,
skip a failed one. -/
def fromCoreStep (core : CoreM) (vals : Nat → Option Nat) (i : Nat) :
    Nat → Option Nat :=
  match core.readReg i with
  | some value => regInsert vals i value
  | none => vals

/-- `Registers::from_core`: read every platform register, storing the
successes and skipping the failures. -/
def Registers.fromCore (core : CoreM) : Registers :=
  { values :=
      (List.range core.numPlatformRegisters).foldl (fromCoreStep core)
        (fun _ => none)
    architecture := core.architecture }

/-- `Registers::get_canonical_frame_address`.  The source's AVR arm is
`todo!()` (a panic); it is modelled as `none` and never exercised. -/
def Registers.getCanonicalFrameAddress (r : Registers) : Option Nat :=
  match r.architecture with
  | .arm => r.values 13
  | .avr => none
  | .riscv => r.values 2

/-- `Registers::set_canonical_frame_address`.  The AVR arm is `todo!()`;
modelled as the identity and never exercised. -/
def Registers.setCanonicalFrameAddress (r : Registers) (value : Option Nat) :
    Registers :=
  match r.architecture with
  | .avr => r
  | arch =>
    let registerAddress : Nat := match arch with
      | .arm => 13
      | .avr => 13
      | .riscv => 2
    match value with
    | some v => { r with values := regInsert r.values registerAddress v }
    | none => { r with values := regRemove r.values registerAddress }

/-- `Registers::get_program_counter` (AVR arm is `todo!()`, modelled as
`none`). -/
def Registers.getProgramCounter (r : Registers) : Option Nat :=
  match r.architecture with
  | .arm => r.values 14
  | .avr => none
  | .riscv => r.values 1

/-- `Registers::get_return_address` (AVR arm is `todo!()`, modelled as
`none`). -/
def Registers.getReturnAddress (r : Registers) : Option Nat :=
  match r.architecture with
  | .arm => r.values 15
  | .avr => none
  | .riscv => r.values 1

/-- `Registers::get_by_dwarf_register_number`. -/
def Registers.getByDwarfRegisterNumber (r : Registers) (n : Nat) : Option Nat :=
  r.values n

/-- `Registers::set_by_dwarf_register_number`. -/
def Registers.setByDwarfRegisterNumber (r : Registers) (n : Nat)
    (value : Option Nat) : Registers :=
  match value with
  | some v => { r with values := regInsert r.values n v }
  | none => { r with values := regRemove r.values n }

/-! ## DWARF data model

The DIE trees, attribute values, unwind rows and line programs are the
data that gimli parses out of the ELF; the embedding carries them as
explicit structures and translates the source's traversal logic over
them. -/

/-- The DWARF tags dispatched on by `debug/mod.rs`.  `unknown` stands
for any other tag (carrying its printed name for diagnostics). -/
inductive DwTag where
  | subprogram
  | inlinedSubroutine
  | namespaceTag
  | variableTag
  | member
  | enumerator
  | variantPart
  | variantTag
  | subrangeType
  | templateTypeParameter
  | formalParameter
  | lexicalBlock
  | baseType
  | pointerType
  | structureType
  | enumerationType
  | arrayType
  | unionType
  | subroutineType
  | unknown (name : String)
deriving DecidableEq, Repr

/-- The DWARF attributes dispatched on by `debug/mod.rs`. -/
inductive DwAt where
  | name
  | location
  | dataMemberLocation
  | declFile
  | declLine
  | declColumn
  | containingType
  | typeAttr
  | enumClass
  | constValue
  | alignment
  | artificial
  | discr
  | lowerBound
  | upperBound
  | count
  | external
  | declaration
  | encoding
  | discrValue
  | byteSize
  | abstractOrigin
  | linkageName
  | lowPc
  | highPc
  | rangesAttr
  | callFile
  | callLine
  | callColumn
  | unknownAt (name : String)
deriving DecidableEq, Repr

/-- An evaluation-suspension request issued by gimli's location
expression interpreter (`EvaluationResult`). -/
inductive EvalRequest where
  | requiresMemory (address size : Nat)
  | requiresFrameBase
  | requiresRegister (reg baseType : Nat)
  | requiresRelocatedAddress (addressIndex : Nat)
  | otherRequest
deriving DecidableEq, Repr

/-- A gimli `Value`, as matched in `extract_location`.  The two float
variants carry their rendered form only. -/
inductive ValueM where
  | generic (v : Nat)
  | i8v (v : Int)
  | u8v (v : Nat)
  | i16v (v : Int)
  | u16v (v : Nat)
  | i32v (v : Int)
  | u32v (v : Nat)
  | i64v (v : Int)
  | u64v (v : Nat)
  | f32v (rendered : String)
  | f64v (rendered : String)
deriving DecidableEq, Repr

/-- `Display` of a gimli `Value`, as used by `set_value(value.to_string())`. -/
def ValueM.render : ValueM → String
  | .generic v => toString v
  | .i8v v => toString v
  | .u8v v => toString v
  | .i16v v => toString v
  | .u16v v => toString v
  | .i32v v => toString v
  | .u32v v => toString v
  | .i64v v => toString v
  | .u64v v => toString v
  | .f32v s => s
  | .f64v s => s

/-- A gimli piece location, as matched in `extract_location`. -/
inductive LocationM where
  | empty
  | address (address : Nat)
  | value (v : ValueM)
  | registerLoc (reg : Nat)
  | otherLoc (rendered : String)
deriving DecidableEq, Repr

/-- A gimli `Piece` (only its location is consumed). -/
structure PieceM where
  location : LocationM
deriving DecidableEq, Repr

/-- A DWARF location expression, modelled by the suspension requests its
gimli evaluation issues and the pieces the completed evaluation
returns.  The values fed back by `resume_with_*` steer gimli's internal
state machine, which is outside the source; the final `pieces` stand for
its outcome. -/
structure ExprM where
  requests : List EvalRequest
  pieces : List PieceM
deriving DecidableEq, Repr

/-- A gimli attribute value, as matched by `debug/mod.rs`.  String data
arrives already resolved (`DebugStrRef` lookups and UTF-8 decoding are
gimli-side).  `rangeListsRef` carries the resolved range list.
`otherVal` stands for any unmodelled value, carrying its `Debug`
rendering. -/
inductive AttrVal where
  | unitRef (off : Nat)
  | udata (v : Nat)
  | data1 (v : Nat)
  | addrVal (v : Nat)
  | flagVal (b : Bool)
  | debugStrRef (s : String)
  | stringVal (s : String)
  | fileIndex (n : Nat)
  | exprloc (e : ExprM)
  | rangeListsRef (rs : List (Nat × Nat))
  | otherVal (rendered : String)
deriving DecidableEq, Repr

/-- `Debug` rendering of an attribute value, used when the source embeds
the value in an `UNIMPLEMENTED`/`ERROR` message (the exact Rust `Debug`
output is approximated). -/
def AttrVal.render : AttrVal → String
  | .unitRef off => "UnitRef(" ++ toString off ++ ")"
  | .udata v => "Udata(" ++ toString v ++ ")"
  | .data1 v => "Data1(" ++ toString v ++ ")"
  | .addrVal v => "Addr(" ++ toString v ++ ")"
  | .flagVal b => "Flag(" ++ toString b ++ ")"
  | .debugStrRef s => "DebugStrRef(" ++ s ++ ")"
  | .stringVal s => "String(" ++ s ++ ")"
  | .fileIndex n => "FileIndex(" ++ toString n ++ ")"
  | .exprloc _ => "Exprloc(..)"
  | .rangeListsRef _ => "RangeListsRef(..)"
  | .otherVal r => r

/-- `AttributeValue::udata_value` for the modelled constructors. -/
def AttrVal.udataValue : AttrVal → Option Nat
  | .udata v => some v
  | .data1 v => some v
  | _ => none

/-- A debugging-information entry.  `offset` is the unit-local offset
DIE references point at, `ranges` is the resolved result of
`die_ranges` (address ranges from low/high pc or range lists). -/
inductive Die where
  | mk (offset : Nat) (tag : DwTag) (attrs : List (DwAt × AttrVal))
      (ranges : List (Nat × Nat)) (children : List Die)

def Die.offset : Die → Nat
  | .mk o _ _ _ _ => o

def Die.tag : Die → DwTag
  | .mk _ t _ _ _ => t

def Die.attrs : Die → List (DwAt × AttrVal)
  | .mk _ _ a _ _ => a

def Die.ranges : Die → List (Nat × Nat)
  | .mk _ _ _ r _ => r

def Die.children : Die → List Die
  | .mk _ _ _ _ c => c

/-- `entry.attr(name)`: the first attribute with the given name.  gimli
parse failures (the `Err` arms of the source matches) are not
modelled. -/
def Die.attrGet (d : Die) (a : DwAt) : Option AttrVal :=
  (d.attrs.find? (fun p => p.1 = a)).map (fun p => p.2)

/-- `entry.has_children()`. -/
def Die.hasChildren (d : Die) : Bool := !d.children.isEmpty

mutual

/-- Depth-first flattening of a DIE tree with absolute depths, the order
a gimli `next_dfs` cursor visits entries. -/
def flattenDepth (depth : Nat) : Die → List (Nat × Die)
  | .mk off tag attrs ranges kids =>
    (depth, Die.mk off tag attrs ranges kids) :: flattenDepthList (depth + 1) kids

def flattenDepthList (depth : Nat) : List Die → List (Nat × Die)
  | [] => []
  | d :: rest => flattenDepth depth d ++ flattenDepthList depth rest

end

/-- A line-program file entry, with its path name and directory already
resolved to strings. -/
structure FileEntryM where
  pathName : String
  directory : Option String
deriving DecidableEq, Repr

/-- gimli's `ColumnType`. -/
inductive ColumnTypeM where
  | leftEdge
  | column (c : Nat)
deriving DecidableEq, Repr

/-- The derived `Ord` on gimli's `ColumnType`: `LeftEdge` sorts before
any `Column`. -/
def colLt : ColumnTypeM → ColumnTypeM → Bool
  | .leftEdge, .leftEdge => false
  | .leftEdge, .column _ => true
  | .column _, .leftEdge => false
  | .column a, .column b => decide (a < b)

/-- A line-program row, with the `file(header)` lookup already
resolved. -/
structure RowM where
  address : Nat
  line : Option Nat
  column : ColumnTypeM
  file : Option FileEntryM
deriving DecidableEq, Repr

/-- A line-program sequence, as produced by `sequences()`. -/
structure SeqM where
  start : Nat
  stop : Nat
  rows : List RowM
deriving DecidableEq, Repr

/-- A line program: its header's file-name table and its row sequences.
`rows()` iterates all sequences in order. -/
structure LineProgM where
  fileNames : List FileEntryM
  sequences : List SeqM
deriving DecidableEq, Repr

/-- All rows of the program, as `line_program.clone().rows()` yields
them. -/
def LineProgM.allRows (lp : LineProgM) : List RowM :=
  (lp.sequences.map SeqM.rows).flatten

/-- `header.file(n)`: DWARF version 4 file indices are 1-based; index 0
names the primary source file and resolves to `None` here (the source
special-cases it before calling). -/
def LineProgM.file (lp : LineProgM) (n : Nat) : Option FileEntryM :=
  if n = 0 then none else lp.fileNames.get? (n - 1)

/-- A compilation unit: its DIE tree, line program, `comp_dir`, and the
resolved `unit_ranges`. -/
structure UnitM where
  root : Die
  lineProg : Option LineProgM
  compDir : Option String
  unitRanges : List (Nat × Nat)

/-- `entries_tree(abbrevs, Some(offset))`: the subtree rooted at the DIE
with the given unit-local offset. -/
def UnitM.dieAt (u : UnitM) (off : Nat) : Option Die :=
  ((flattenDepth 0 u.root).find? (fun p => p.2.offset = off)).map (fun p => p.2)

/-- A `.debug_frame` unwind row: the CFA rule and the per-register
rules at one program counter. -/
inductive CfaRule where
  | registerAndOffset (reg : Nat) (offset : Int)
  | expressionRule
deriving DecidableEq, Repr

inductive RegisterRule where
  | undefinedRule
  | sameValue
  | offsetRule (o : Int)
  | otherRule
deriving DecidableEq, Repr

structure UnwindRow where
  cfa : CfaRule
  regRule : Nat → RegisterRule

/-- The whole debug environment: the parsed DWARF data plus the live
core. -/
structure DebugEnv where
  units : List UnitM
  unwindInfoAt : Nat → Option UnwindRow
  core : CoreM

/-! ## Paths

`get_path` joins `PathBuf`s; paths are modelled as strings where a
leading slash means absolute. -/

/-- Does the path start with a slash (`starts_with("/")`, written over
the character list so that it evaluates)? -/
def strHeadIsSlash (p : String) : Bool :=
  match p.data with
  | [] => false
  | c :: _ => c = '/'

/-- `Path::is_relative`. -/
def pathIsRelative (p : String) : Bool := !strHeadIsSlash p

/-- `PathBuf::join`: an absolute right operand replaces the left. -/
def pathJoin (a b : String) : String :=
  if strHeadIsSlash b then b else a ++ "/" ++ b

/-- `Path::file_name`, approximated: the last slash-separated component
when it is nonempty. -/
def pathFileName (p : String) : Option String :=
  (p.splitOn "/").getLast?.bind (fun s => if s = "" then none else some s)

/-- `Path::parent`, approximated: the prefix before the last slash. -/
def pathParent (p : String) : Option String :=
  let cs := p.splitOn "/"
  if cs.length ≤ 1 then none
  else some (String.intercalate "/" cs.dropLast)

/-- `DebugInfo::get_path`: combine a file entry's directory and name,
prepending the unit's `comp_dir` when the combination is relative
(UTF-8 decoding failures are not modelled). -/
def getPath (u : UnitM) (fileEntry : FileEntryM) : Option String :=
  let namePath := fileEntry.pathName
  let combined := match fileEntry.directory with
    | some dirPath => pathJoin dirPath namePath
    | none => namePath
  if pathIsRelative combined then
    match u.compDir with
    | some compDir => some (pathJoin compDir combined)
    | none => some combined
  else
    some combined

/-- `DebugInfo::find_file_and_directory`. -/
def findFileAndDirectory (u : UnitM) (fileEntry : FileEntryM) :
    Option (Option String × Option String) :=
  (getPath u fileEntry).map (fun p => (pathFileName p, pathParent p))

/-! ## Variables

`variable.rs` is declared by `debug/mod.rs` but its source is not part
of the reviewed tree; the data type and its helpers are modelled from
the specification's data model (spec section 3, "Variable"). -/

inductive VariableKind where
  | named
  | indexed
  | referenced
deriving DecidableEq, Repr

inductive VariableInclusion where
  | unknownV
  | includeV
  | excludeV
deriving DecidableEq, Repr

inductive VariantRole where
  | nonVariant
  | variantPart (discriminant : Nat)
  | variant (value : Nat)
deriving DecidableEq, Repr

/-- Modelled from the spec: the scalar fields of a `Variable` node
(name, type-name, inline value string, kind, inclusion flag, 64-bit
memory location with `u64::MAX` as the "not in memory" sentinel, byte
size, declaration file/line, array member index, subrange bounds and
variant role).  Fresh variables start with empty strings, location 0 and
an undetermined inclusion, so that only explicitly excluded variables
are skipped. -/
structure VarData where
  name : String := ""
  typeName : String := ""
  value : String := ""
  kind : VariableKind := VariableKind.named
  inclusion : VariableInclusion := VariableInclusion.unknownV
  memoryLocation : Nat := 0
  byteSize : Nat := 0
  file : String := ""
  line : Nat := 0
  memberIndex : Option Int := none
  rangeLowerBound : Int := 0
  rangeUpperBound : Int := 0
  role : VariantRole := VariantRole.nonVariant
deriving DecidableEq, Repr

/-- Modelled from the spec: a `Variable` is a tree node with the scalar
fields and optional children. -/
inductive Variable where
  | mk (data : VarData) (children : Option (List Variable))

def Variable.data : Variable → VarData
  | .mk d _ => d

def Variable.children : Variable → Option (List Variable)
  | .mk _ c => c

def Variable.withData (v : Variable) (d : VarData) : Variable :=
  .mk d v.children

def Variable.withChildren (v : Variable) (c : Option (List Variable)) :
    Variable := .mk v.data c

/-- `Variable::new`. -/
def Variable.new : Variable := .mk {} none

def Variable.name (v : Variable) : String := v.data.name

def Variable.typeName (v : Variable) : String := v.data.typeName

def Variable.kind (v : Variable) : VariableKind := v.data.kind

def Variable.inclusion (v : Variable) : VariableInclusion := v.data.inclusion

def Variable.memoryLocation (v : Variable) : Nat := v.data.memoryLocation

def Variable.byteSize (v : Variable) : Nat := v.data.byteSize

def Variable.file (v : Variable) : String := v.data.file

def Variable.line (v : Variable) : Nat := v.data.line

def Variable.memberIndex (v : Variable) : Option Int := v.data.memberIndex

def Variable.rangeLowerBound (v : Variable) : Int := v.data.rangeLowerBound

def Variable.rangeUpperBound (v : Variable) : Int := v.data.rangeUpperBound

def Variable.role (v : Variable) : VariantRole := v.data.role

/-- Modelled from the spec: `Variable::set_value` stores the inline
value string. -/
def Variable.setValue (v : Variable) (s : String) : Variable :=
  v.withData { v.data with value := s }

/-- Modelled from the spec: `Variable::get_value` returns the inline
value string. -/
def Variable.getValue (v : Variable) : String := v.data.value

/-- Little-endian byte-list to `Nat`. -/
def leBytesToNat : List Nat → Nat
  | [] => 0
  | b :: rest => b + 256 * leBytesToNat rest

/-- Modelled from the spec: `Variable::extract_value` materializes the
value from target memory where possible — when no value is recorded
yet, the variable has an in-memory location and a small byte size, it
reads `byte_size` bytes at the location and renders them as a decimal
number; otherwise the variable is unchanged. -/
def Variable.extractValue (v : Variable) (core : CoreM) : Variable :=
  if v.getValue = "" ∧ v.memoryLocation ≠ u64Max ∧ 0 < v.byteSize ∧
      v.byteSize ≤ 8 then
    match core.readMem (v.memoryLocation % u32Mod) v.byteSize with
    | some bytes => v.setValue (toString (leBytesToNat bytes))
    | none => v
  else v

/-- Modelled from the spec: `Variable::add_child_variable` materializes
the child's value and appends it to the children list. -/
def Variable.addChildVariable (parent child : Variable) (core : CoreM) :
    Variable :=
  let child := child.extractValue core
  parent.withChildren (some ((parent.children).getD [] ++ [child]))

/-- `str::parse::<u64>` on the value strings produced here (decimal
digits only). -/
def parseU64 (s : String) : Option Nat := s.toNat?

/-! ## Attribute extraction helpers of `debug/mod.rs` -/

/-- `extract_name`. -/
def extractName (v : AttrVal) : String :=
  match v with
  | .debugStrRef s => s
  | .stringVal s => s
  | other => "UNIMPLEMENTED: Evaluate name from " ++ other.render

/-- `extract_file`: resolve a `FileIndex` attribute through the line
program to a `directory/name` string. -/
def extractFile (u : UnitM) (v : AttrVal) : Option String :=
  match v with
  | .fileIndex index =>
    u.lineProg.bind fun lp =>
      (lp.file index).bind fun fileEntry =>
        fileEntry.directory.map fun dir => dir ++ "/" ++ fileEntry.pathName
  | _ => none

/-- `extract_byte_size`: a `Udata` `DW_AT_byte_size` or 0. -/
def extractByteSize (d : Die) : Nat :=
  match d.attrGet DwAt.byteSize with
  | some (.udata byteSize) => byteSize
  | some _ => 0
  | none => 0

/-- `extract_line`: a `Udata` line number. -/
def extractLine (v : AttrVal) : Option Nat :=
  match v with
  | .udata line => some line
  | _ => none

/-- `Debug` rendering of a `DebugError`, approximated, for the error
messages that embed one. -/
def DebugError.render : DebugError → String
  | .ioErr => "Io(..)"
  | .debugData => "DebugData(..)"
  | .parseErr => "Parse(..)"
  | .nonUtf8 => "NonUtf8(..)"
  | .probe => "Probe(..)"
  | .charConversion => "CharConversion(..)"
  | .intConversion => "IntConversion(..)"
  | .other msg => "Other(" ++ msg ++ ")"

/-! ## The DWARF expression interpreter (`UnitInfo::expr_to_piece`) -/

/-- The suspension-handling loop of `expr_to_piece`: serve each request
from the live core.  Memory reads of unsupported sizes, register
requests with a nonzero base type and any other request are `todo!()`
(`none`); a failed memory read maps to `DebugError::Other`, a failed
register read propagates the probe error.  The values composed from the
read bytes feed gimli's internal evaluation and are not consumed by the
source beyond that. -/
def exprRequestsRun (core : CoreM) : List EvalRequest →
    Option (Except DebugError Unit)
  | [] => some (Except.ok ())
  | EvalRequest.requiresMemory address size :: rest =>
    match core.readMem (address % u32Mod) size with
    | none => some (Except.error (DebugError.other
        "Unexpected error while reading debug expressions from target memory. Please report this as a bug."))
    | some _bytes =>
      if size = 1 ∨ size = 2 ∨ size = 4 then exprRequestsRun core rest
      else none
  | EvalRequest.requiresFrameBase :: rest => exprRequestsRun core rest
  | EvalRequest.requiresRegister reg baseType :: rest =>
    match core.readReg reg with
    | none => some (Except.error DebugError.probe)
    | some _rawValue =>
      if baseType ≠ 0 then none else exprRequestsRun core rest
  | EvalRequest.requiresRelocatedAddress _addressIndex :: rest =>
    exprRequestsRun core rest
  | EvalRequest.otherRequest :: _ => none

/-- `UnitInfo::expr_to_piece`: run the evaluation loop, returning the
pieces of the completed evaluation.  The frame base only feeds the
`RequiresFrameBase` resumption. -/
def exprToPiece (core : CoreM) (expression : ExprM) (_frameBase : Nat) :
    Option (Except DebugError (List PieceM)) :=
  match exprRequestsRun core expression.requests with
  | none => none
  | some (Except.error e) => some (Except.error e)
  | some (Except.ok ()) => some (Except.ok expression.pieces)

/-! ## `UnitInfo::extract_location` -/

/-- Handling of one `DW_AT_location` / `DW_AT_data_member_location`
value, updating the child variable (`extract_location`'s match body).
Every failure is recorded inline in the child's value string; the eleven
identical numeric `Location::Value` arms of the source are collapsed
into one. -/
def extractLocationValue (core : CoreM) (parent : Variable)
    (frameBase : Nat) (child : Variable) (v : AttrVal) : Option Variable :=
  match v with
  | .exprloc expression =>
    match exprToPiece core expression frameBase with
    | none => none
    | some evalRes =>
      let (child, pieces) := match evalRes with
        | .error err =>
          (child.setValue ("ERROR: expr_to_piece() failed with: " ++ err.render),
            ([] : List PieceM))
        | .ok pieces => (child, pieces)
      match pieces with
      | [] =>
        some (((child.withData
          { child.data with memoryLocation := u64Max })).setValue
          "ERROR: expr_to_piece() returned 0 results: []")
      | _ :: _ :: _ =>
        some (((child.withData
          { child.data with memoryLocation := u64Max })).setValue
          "UNIMPLEMENTED: expr_to_piece() returned more than 1 result")
      | [piece] =>
        match piece.location with
        | .empty =>
          some (child.withData { child.data with memoryLocation := 0 })
        | .address address =>
          if address = u32Max then
            some (((child.withData
              { child.data with memoryLocation := u64Max })).setValue
              "BUG: Cannot resolve due to rust-lang issue https://github.com/rust-lang/rust/issues/32574")
          else
            some (child.withData { child.data with memoryLocation := address })
        | .value value =>
          some (((child.withData
            { child.data with memoryLocation := u64Max })).setValue
            value.render)
        | .registerLoc _ =>
          some (((child.withData
            { child.data with memoryLocation := u64Max })).setValue
            "extract_location() found a register address as the location")
        | .otherLoc rendered =>
          some (((child.withData
            { child.data with memoryLocation := u64Max })).setValue
            ("UNIMPLEMENTED: extract_location() found a location type: " ++
              rendered))
  | .udata offsetFromParent =>
    if parent.memoryLocation ≠ u64Max then
      some (child.withData { child.data with
        memoryLocation := (parent.memoryLocation + offsetFromParent) % u64Mod })
    else
      some (child.withData { child.data with
        memoryLocation := offsetFromParent })
  | otherAttributeValue =>
    some (child.setValue
      ("ERROR: extract_location() Could not extract location from: " ++
        otherAttributeValue.render))

/-- The attribute loop of `extract_location`. -/
def extractLocationAttrs (core : CoreM) (parent : Variable)
    (frameBase : Nat) : List (DwAt × AttrVal) → Variable → Option Variable
  | [], child => some child
  | (attrName, v) :: rest, child =>
    match attrName with
    | DwAt.location =>
      match extractLocationValue core parent frameBase child v with
      | none => none
      | some child => extractLocationAttrs core parent frameBase rest child
    | DwAt.dataMemberLocation =>
      match extractLocationValue core parent frameBase child v with
      | none => none
      | some child => extractLocationAttrs core parent frameBase rest child
    | _ => extractLocationAttrs core parent frameBase rest child

/-- `UnitInfo::extract_location`.  The `Result` is kept from the source
signature; the body, like the source, catches every evaluation failure
inline and never produces the error case. -/
def extractLocation (core : CoreM) (node : Die) (parent child : Variable)
    (frameBase : Nat) : Option (Except DebugError Variable) :=
  match extractLocationAttrs core parent frameBase node.attrs child with
  | none => none
  | some child => some (Except.ok child)

/-! ## The variable and type resolver

`UnitInfo::process_tree`, `process_tree_node_attributes` and
`extract_type` from `debug/mod.rs`, as one fuel-indexed mutual
recursion.  Each function consumes one unit of fuel on entry; `none`
means the fuel ran out (the source recursion would not have terminated)
or a panicking branch was reached. -/

/-- `static_string()` of a tag, for diagnostic messages. -/
def DwTag.render : DwTag → String
  | .subprogram => "DW_TAG_subprogram"
  | .inlinedSubroutine => "DW_TAG_inlined_subroutine"
  | .namespaceTag => "DW_TAG_namespace"
  | .variableTag => "DW_TAG_variable"
  | .member => "DW_TAG_member"
  | .enumerator => "DW_TAG_enumerator"
  | .variantPart => "DW_TAG_variant_part"
  | .variantTag => "DW_TAG_variant"
  | .subrangeType => "DW_TAG_subrange_type"
  | .templateTypeParameter => "DW_TAG_template_type_parameter"
  | .formalParameter => "DW_TAG_formal_parameter"
  | .lexicalBlock => "DW_TAG_lexical_block"
  | .baseType => "DW_TAG_base_type"
  | .pointerType => "DW_TAG_pointer_type"
  | .structureType => "DW_TAG_structure_type"
  | .enumerationType => "DW_TAG_enumeration_type"
  | .arrayType => "DW_TAG_array_type"
  | .unionType => "DW_TAG_union_type"
  | .subroutineType => "DW_TAG_subroutine_type"
  | .unknown n => n

/-- `static_string()` of an attribute name, for diagnostic messages. -/
def DwAt.render : DwAt → String
  | .name => "DW_AT_name"
  | .location => "DW_AT_location"
  | .dataMemberLocation => "DW_AT_data_member_location"
  | .declFile => "DW_AT_decl_file"
  | .declLine => "DW_AT_decl_line"
  | .declColumn => "DW_AT_decl_column"
  | .containingType => "DW_AT_containing_type"
  | .typeAttr => "DW_AT_type"
  | .enumClass => "DW_AT_enum_class"
  | .constValue => "DW_AT_const_value"
  | .alignment => "DW_AT_alignment"
  | .artificial => "DW_AT_artificial"
  | .discr => "DW_AT_discr"
  | .lowerBound => "DW_AT_lower_bound"
  | .upperBound => "DW_AT_upper_bound"
  | .count => "DW_AT_count"
  | .external => "DW_AT_external"
  | .declaration => "DW_AT_declaration"
  | .encoding => "DW_AT_encoding"
  | .discrValue => "DW_AT_discr_value"
  | .byteSize => "DW_AT_byte_size"
  | .abstractOrigin => "DW_AT_abstract_origin"
  | .linkageName => "DW_AT_linkage_name"
  | .lowPc => "DW_AT_low_pc"
  | .highPc => "DW_AT_high_pc"
  | .rangesAttr => "DW_AT_ranges"
  | .callFile => "DW_AT_call_file"
  | .callLine => "DW_AT_call_line"
  | .callColumn => "DW_AT_call_column"
  | .unknownAt n => n

/-- Bind through the `Option (Except DebugError _)` layering: `none`
and `Err` short-circuit, exactly like a Rust `?` under a possibly
non-terminating computation. -/
def obindE {α β : Type} (x : Option (Except DebugError α))
    (f : α → Option (Except DebugError β)) : Option (Except DebugError β) :=
  match x with
  | none => none
  | some (Except.error e) => some (Except.error e)
  | some (Except.ok a) => f a

/-- `UnitInfo::extract_variant_discriminant`: read a `DW_AT_discr_value`
(or default to variant 0 when it is absent). -/
def extractVariantDiscriminant (node : Die) (v : Variable) : Variable :=
  if node.tag = DwTag.variantTag then
    match node.attrGet DwAt.discrValue with
    | some (.data1 constValue) =>
      v.withData { v.data with role := VariantRole.variant constValue }
    | some otherAttributeValue =>
      (v.setValue ("UNIMPLEMENTED: Attribute Value for DW_AT_discr_value: " ++
        otherAttributeValue.render)).withData
        { v.data with
          value := "UNIMPLEMENTED: Attribute Value for DW_AT_discr_value: " ++
            otherAttributeValue.render
          role := VariantRole.variant u64Max }
    | none =>
      v.withData { v.data with role := VariantRole.variant 0 }
  else v

/-- `parent.add_child_variable` over a list of grandchildren (the
hoisting loops of the `DW_TAG_variant_part` / `DW_TAG_variant` arms). -/
def addAllChildren (parent : Variable) (kids : List Variable)
    (core : CoreM) : Variable :=
  kids.foldl (fun p c => p.addChildVariable c core) parent

mutual

/-- `UnitInfo::process_tree`: walk the children of `parentNode`,
growing `parent`. -/
def processTree (fuel : Nat) (env : DebugEnv) (u : UnitM) (parentNode : Die)
    (parent : Variable) (frameBase programCounter : Nat) :
    Option (Except DebugError Variable) :=
  match fuel with
  | 0 => none
  | fuel + 1 =>
    processTreeKids fuel env u parentNode.children parent frameBase
      programCounter
termination_by structural fuel

/-- The `while let Some(child_node) = child_nodes.next()` loop of
`process_tree`. -/
def processTreeKids (fuel : Nat) (env : DebugEnv) (u : UnitM)
    (kids : List Die) (parent : Variable) (frameBase programCounter : Nat) :
    Option (Except DebugError Variable) :=
  match fuel with
  | 0 => none
  | fuel + 1 =>
    match kids with
    | [] => some (Except.ok parent)
    | childNode :: rest =>
      obindE (processTreeNode fuel env u childNode parent frameBase
          programCounter)
        (fun parent =>
          processTreeKids fuel env u rest parent frameBase programCounter)
termination_by structural fuel

/-- One arm of `process_tree`'s tag dispatch, for one child node. -/
def processTreeNode (fuel : Nat) (env : DebugEnv) (u : UnitM)
    (childNode : Die) (parent : Variable) (frameBase programCounter : Nat) :
    Option (Except DebugError Variable) :=
  match fuel with
  | 0 => none
  | fuel + 1 =>
    match childNode.tag with
    | DwTag.namespaceTag =>
      let namespaceVariable :=
        (Variable.new.withData
          { Variable.new.data with
            name := match childNode.attrGet DwAt.name with
              | some attr => extractName attr
              | none => "<anonymous namespace>"
            typeName := "namespace"
            memoryLocation := 0 })
      obindE (processNamespaceKids fuel env u childNode.children
          namespaceVariable frameBase programCounter)
        (fun namespaceVariable =>
          some (Except.ok
            (parent.addChildVariable namespaceVariable env.core)))
    | DwTag.variableTag =>
      processVariableNode fuel env u childNode parent frameBase programCounter
    | DwTag.member =>
      processVariableNode fuel env u childNode parent frameBase programCounter
    | DwTag.enumerator =>
      processVariableNode fuel env u childNode parent frameBase programCounter
    | DwTag.variantPart =>
      let childVariable := Variable.new
      let parent :=
        parent.withData { parent.data with role := VariantRole.variantPart 0 }
      obindE (ptna fuel env u childNode parent childVariable frameBase
          programCounter)
        (fun pc' =>
          let parent := pc'.1
          let childVariable :=
            pc'.2.withData { pc'.2.data with role := parent.role }
          obindE (processTree fuel env u childNode childVariable frameBase
              programCounter)
            (fun childVariable =>
              if childVariable.typeName = "" ∧ childVariable.children.isSome
              then
                some (Except.ok (addAllChildren parent
                  ((childVariable.children).getD []) env.core))
              else
                some (Except.ok parent)))
    | DwTag.variantTag =>
      let childVariable := Variable.new
      let childVariable := extractVariantDiscriminant childNode childVariable
      obindE (ptna fuel env u childNode parent childVariable frameBase
          programCounter)
        (fun pc' =>
          let parent := pc'.1
          let childVariable := pc'.2
          match childVariable.role with
          | VariantRole.variant discriminant =>
            if parent.role = VariantRole.variantPart discriminant then
              obindE (processTree fuel env u childNode childVariable frameBase
                  programCounter)
                (fun childVariable =>
                  if childVariable.typeName = "" ∧
                      childVariable.children.isSome then
                    some (Except.ok (addAllChildren parent
                      ((childVariable.children).getD []) env.core))
                  else
                    some (Except.ok parent))
            else some (Except.ok parent)
          | _ => some (Except.ok parent))
    | DwTag.subrangeType =>
      let rangeVariable := Variable.new
      obindE (ptna fuel env u childNode parent rangeVariable frameBase
          programCounter)
        (fun pc' =>
          let parent := pc'.1
          let rangeVariable := pc'.2
          some (Except.ok (parent.withData { parent.data with
            typeName := rangeVariable.typeName
            rangeLowerBound := rangeVariable.rangeLowerBound
            rangeUpperBound := rangeVariable.rangeUpperBound })))
    | DwTag.templateTypeParameter => some (Except.ok parent)
    | DwTag.formalParameter =>
      processTree fuel env u childNode parent frameBase programCounter
    | DwTag.inlinedSubroutine =>
      processTree fuel env u childNode parent frameBase programCounter
    | DwTag.lexicalBlock =>
      let scopeInfo : Bool × Variable :=
        match childNode.attrGet DwAt.lowPc with
        | some lowPcAttr =>
          let lowPc : Nat := match lowPcAttr with
            | .addrVal value => value
            | _ => u64Max
          let highPc : Nat := match childNode.attrGet DwAt.highPc with
            | some highPcAttr =>
              match highPcAttr with
              | .addrVal addr => addr
              | .udata unsignedOffset => (lowPc + unsignedOffset) % u64Mod
              | _ => 0
            | none => 0
          let parent := if lowPc = u64Max ∨ highPc = 0 then
              parent.setValue "ERROR: Processing of variables failed because of invalid/unsupported scope information. Please log a bug at 'https://github.com/probe-rs/probe-rs/issues'"
            else parent
          (decide (lowPc ≤ programCounter ∧ programCounter < highPc), parent)
        | none => (false, parent)
      let inScope := scopeInfo.1
      let parent := scopeInfo.2
      let scopeInfo2 : Bool × Variable :=
        if inScope then (inScope, parent)
        else
          match childNode.attrGet DwAt.rangesAttr with
          | some (.rangeListsRef ranges) =>
            (ranges.any (fun rg =>
              decide (rg.1 ≤ programCounter ∧ programCounter < rg.2)), parent)
          | some otherRangeAttribute =>
            (inScope, parent.setValue ("Found unexpected scope attribute: " ++
              otherRangeAttribute.render ++ " for variable " ++ parent.name))
          | none => (inScope, parent)
      if scopeInfo2.1 then
        processTree fuel env u childNode scopeInfo2.2 frameBase programCounter
      else
        some (Except.ok scopeInfo2.2)
    | DwTag.baseType => some (Except.ok parent)
    | DwTag.pointerType => some (Except.ok parent)
    | DwTag.structureType => some (Except.ok parent)
    | DwTag.enumerationType => some (Except.ok parent)
    | DwTag.arrayType => some (Except.ok parent)
    | DwTag.subroutineType => some (Except.ok parent)
    | DwTag.subprogram => some (Except.ok parent)
    | DwTag.unionType => some (Except.ok parent)
    | DwTag.unknown tagName =>
      some (Except.ok (parent.setValue
        ("UNIMPLEMENTED: Encountered unimplemented DwTag " ++ tagName ++
          " for Variable " ++ parent.name)))
termination_by structural fuel

/-- The `DW_TAG_variable | DW_TAG_member | DW_TAG_enumerator` arm of
`process_tree`: skip `PhantomData` and excluded variables, recurse into
the rest. -/
def processVariableNode (fuel : Nat) (env : DebugEnv) (u : UnitM)
    (childNode : Die) (parent : Variable) (frameBase programCounter : Nat) :
    Option (Except DebugError Variable) :=
  match fuel with
  | 0 => none
  | fuel + 1 =>
    let childVariable := Variable.new
    obindE (ptna fuel env u childNode parent childVariable frameBase
        programCounter)
      (fun pc' =>
        let parent := pc'.1
        let childVariable := pc'.2
        if ¬(childVariable.typeName.startsWith "PhantomData" ∨
            childVariable.inclusion = VariableInclusion.excludeV) then
          obindE (processTree fuel env u childNode childVariable frameBase
              programCounter)
            (fun childVariable =>
              let childVariable := childVariable.withData
                { childVariable.data with
                  inclusion := VariableInclusion.includeV }
              some (Except.ok (parent.addChildVariable childVariable env.core)))
        else some (Except.ok parent))
termination_by structural fuel

/-- The namespace-children loop of `process_tree`'s
`DW_TAG_namespace` arm: only variables and nested namespaces are
collected. -/
def processNamespaceKids (fuel : Nat) (env : DebugEnv) (u : UnitM)
    (kids : List Die) (namespaceVariable : Variable)
    (frameBase programCounter : Nat) : Option (Except DebugError Variable) :=
  match fuel with
  | 0 => none
  | fuel + 1 =>
    match kids with
    | [] => some (Except.ok namespaceVariable)
    | namespaceChildNode :: rest =>
      match namespaceChildNode.tag with
      | DwTag.variableTag =>
        let staticChildVariable := Variable.new
        obindE (ptna fuel env u namespaceChildNode namespaceVariable
            staticChildVariable frameBase programCounter)
          (fun pc' =>
            let namespaceVariable := pc'.1
            let staticChildVariable := pc'.2.withData
              { pc'.2.data with inclusion := VariableInclusion.includeV }
            processNamespaceKids fuel env u rest
              (namespaceVariable.addChildVariable staticChildVariable env.core)
              frameBase programCounter)
      | DwTag.namespaceTag =>
        let namespaceChildVariable :=
          (Variable.new.withData
            { Variable.new.data with
              name := match namespaceChildNode.attrGet DwAt.name with
                | some attr =>
                  namespaceVariable.name ++ "::" ++ extractName attr
                | none => "<anonymous namespace>"
              typeName := "namespace"
              memoryLocation := 0 })
        obindE (processTree fuel env u namespaceChildNode
            namespaceChildVariable frameBase programCounter)
          (fun namespaceChildVariable =>
            processNamespaceKids fuel env u rest
              (namespaceVariable.addChildVariable namespaceChildVariable
                env.core)
              frameBase programCounter)
      | _ =>
        processNamespaceKids fuel env u rest namespaceVariable frameBase
          programCounter
termination_by structural fuel

/-- `UnitInfo::process_tree_node_attributes`: extract the location
first, inherit the parent's location and member index, then fold over
the attributes.  Returns the (possibly updated) parent together with
the child. -/
def ptna (fuel : Nat) (env : DebugEnv) (u : UnitM) (treeNode : Die)
    (parent child : Variable) (frameBase programCounter : Nat) :
    Option (Except DebugError (Variable × Variable)) :=
  match fuel with
  | 0 => none
  | fuel + 1 =>
    obindE (extractLocation env.core treeNode parent child frameBase)
      (fun child =>
        let child := if child.memoryLocation = 0 then
            child.withData
              { child.data with memoryLocation := parent.memoryLocation }
          else child
        let child := if parent.memberIndex.isSome then
            child.withData { child.data with memberIndex := parent.memberIndex }
          else child
        ptnaAttrs fuel env u treeNode treeNode.attrs parent child frameBase
          programCounter)
termination_by structural fuel

/-- The attribute loop of `process_tree_node_attributes`. -/
def ptnaAttrs (fuel : Nat) (env : DebugEnv) (u : UnitM) (treeNode : Die)
    (attrs : List (DwAt × AttrVal)) (parent child : Variable)
    (frameBase programCounter : Nat) :
    Option (Except DebugError (Variable × Variable)) :=
  match fuel with
  | 0 => none
  | fuel + 1 =>
    match attrs with
    | [] => some (Except.ok (parent, child))
    | (attrName, attrValue) :: rest =>
      let continueWith := fun (parent child : Variable) =>
        ptnaAttrs fuel env u treeNode rest parent child frameBase
          programCounter
      match attrName with
      | DwAt.location => continueWith parent child
      | DwAt.dataMemberLocation => continueWith parent child
      | DwAt.name =>
        continueWith parent (child.withData
          { child.data with name := extractName attrValue })
      | DwAt.declFile =>
        continueWith parent (child.withData
          { child.data with
            file := (extractFile u attrValue).getD "<undefined>" })
      | DwAt.declLine =>
        continueWith parent (child.withData
          { child.data with line := (extractLine attrValue).getD 0 })
      | DwAt.declColumn => continueWith parent child
      | DwAt.containingType => continueWith parent child
      | DwAt.typeAttr =>
        match attrValue with
        | .unitRef unitRef =>
          match u.dieAt unitRef with
          | none => some (Except.error DebugError.parseErr)
          | some typeNode =>
            obindE (extractType fuel env u typeNode parent child frameBase
                programCounter)
              (fun child => continueWith parent child)
        | otherAttributeValue =>
          continueWith parent (child.setValue
            ("UNIMPLEMENTED: Attribute Value for DW_AT_type " ++
              otherAttributeValue.render))
      | DwAt.enumClass =>
        match attrValue with
        | .flagVal isEnumClass =>
          if isEnumClass then
            continueWith parent (child.setValue child.typeName)
          else
            continueWith parent (child.setValue
              ("UNIMPLEMENTED: Flag Value for DW_AT_enum_class " ++
                toString isEnumClass))
        | otherAttributeValue =>
          continueWith parent (child.setValue
            ("UNIMPLEMENTED: Attribute Value for DW_AT_enum_class: " ++
              otherAttributeValue.render))
      | DwAt.constValue =>
        match attrValue with
        | .udata constValue =>
          continueWith parent (child.setValue (toString constValue))
        | otherAttributeValue =>
          continueWith parent (child.setValue
            ("UNIMPLEMENTED: Attribute Value for DW_AT_const_value: " ++
              otherAttributeValue.render))
      | DwAt.alignment => continueWith parent child
      | DwAt.artificial =>
        continueWith parent (child.withData
          { child.data with
            name := "<artificial>"
            inclusion := VariableInclusion.excludeV })
      | DwAt.discr =>
        match attrValue with
        | .unitRef unitRef =>
          match u.dieAt unitRef with
          | none => some (Except.error DebugError.parseErr)
          | some discriminantNode =>
            obindE (ptna fuel env u discriminantNode parent Variable.new
                frameBase programCounter)
              (fun pc' =>
                let parent := pc'.1
                let discriminantVariable := pc'.2.extractValue env.core
                let parent := parent.withData { parent.data with
                  role := VariantRole.variantPart
                    ((parseU64 discriminantVariable.getValue).getD u64Max) }
                continueWith parent child)
        | otherAttributeValue =>
          continueWith parent (child.setValue
            ("UNIMPLEMENTED: Attribute Value for DW_AT_discr " ++
              otherAttributeValue.render))
      | DwAt.lowerBound =>
        match attrValue.udataValue with
        | some lowerBound =>
          continueWith parent (child.withData
            { child.data with rangeLowerBound := toI64 lowerBound })
        | none =>
          continueWith parent (child.setValue
            ("UNIMPLEMENTED: Attribute Value for DW_AT_lower_bound: " ++
              attrValue.render))
      | DwAt.upperBound =>
        match attrValue.udataValue with
        | some upperBound =>
          continueWith parent (child.withData
            { child.data with rangeUpperBound := toI64 upperBound })
        | none =>
          continueWith parent (child.setValue
            ("UNIMPLEMENTED: Attribute Value for DW_AT_upper_bound: " ++
              attrValue.render))
      | DwAt.count =>
        match attrValue.udataValue with
        | some upperBound =>
          continueWith parent (child.withData
            { child.data with rangeUpperBound := toI64 upperBound })
        | none =>
          continueWith parent (child.setValue
            ("UNIMPLEMENTED: Attribute Value for DW_AT_upper_bound: " ++
              attrValue.render))
      | DwAt.external => continueWith parent child
      | DwAt.declaration =>
        continueWith parent (child.withData
          { child.data with inclusion := VariableInclusion.excludeV })
      | DwAt.encoding => continueWith parent child
      | DwAt.discrValue => continueWith parent child
      | DwAt.byteSize => continueWith parent child
      | DwAt.abstractOrigin => continueWith parent child
      | DwAt.linkageName => continueWith parent child
      | otherAttribute =>
        continueWith parent (child.setValue
          ("UNIMPLEMENTED: Variable Attribute " ++ otherAttribute.render ++
            " : " ++ attrValue.render ++ ", with children = " ++
            toString treeNode.hasChildren))
termination_by structural fuel

/-- `UnitInfo::extract_type`: resolve the type name and byte size, then
dispatch on the type tag. -/
def extractType (fuel : Nat) (env : DebugEnv) (u : UnitM) (node : Die)
    (parent child : Variable) (frameBase programCounter : Nat) :
    Option (Except DebugError Variable) :=
  match fuel with
  | 0 => none
  | fuel + 1 =>
    let child := child.withData { child.data with
      typeName := match node.attrGet DwAt.name with
        | some nameAttr => extractName nameAttr
        | none => "<unnamed type>"
      byteSize := extractByteSize node }
    match node.tag with
    | DwTag.baseType =>
      let child := child.withChildren none
      match child.memberIndex with
      | some childMemberIndex =>
        -- `child_member_index as u64 * child_variable.byte_size` is a
        -- `u64` product (it wraps); only the subsequent addition is
        -- `overflowing_add`-checked.
        let product := (toU64 childMemberIndex * child.byteSize) % u64Mod
        let location := child.memoryLocation + product
        if location ≥ u64Mod then
          some (Except.error (DebugError.other
            "Overflow calculating variable address"))
        else
          some (Except.ok (child.withData
            { child.data with memoryLocation := location }))
      | none => some (Except.ok child)
    | DwTag.pointerType =>
      match node.attrGet DwAt.typeAttr with
      | some (.unitRef unitRef) =>
        match u.dieAt unitRef with
        | none => some (Except.error DebugError.parseErr)
        | some referencedNode =>
          let referencedVariable := Variable.new.withData
            { Variable.new.data with
              name := match node.attrGet DwAt.name with
                | some nameAttr => extractName nameAttr
                | none => "" }
          match env.core.readMem (child.memoryLocation % u32Mod) 4 with
          | none => some (Except.error DebugError.probe)
          | some buff =>
            let referencedVariable := referencedVariable.withData
              { referencedVariable.data with
                memoryLocation := u32FromLeBytes buff }
            obindE (extractType fuel env u referencedNode parent
                referencedVariable frameBase programCounter)
              (fun referencedVariable =>
                if referencedVariable.typeName ≠ "()" then
                  let referencedVariable := referencedVariable.withData
                    { referencedVariable.data with
                      kind := VariableKind.referenced
                      inclusion := VariableInclusion.includeV }
                  some (Except.ok
                    (child.addChildVariable referencedVariable env.core))
                else some (Except.ok child))
      | some otherAttributeValue =>
        some (Except.ok (child.setValue
          ("UNIMPLEMENTED: Attribute Value for DW_AT_type " ++
            otherAttributeValue.render)))
      | none =>
        some (Except.ok (child.setValue
          ("ERROR: No Attribute Value for DW_AT_type for variable " ++
            child.name)))
    | DwTag.structureType =>
      obindE (if child.memoryLocation ≠ u64Max then
          processTree fuel env u node child frameBase programCounter
        else some (Except.ok child))
        (fun child =>
          if child.children.isNone then
            some (Except.ok (child.setValue child.typeName))
          else some (Except.ok child))
    | DwTag.enumerationType =>
      obindE (processTree fuel env u node child frameBase programCounter)
        (fun child =>
          let enumeratorValues := (child.children).getD []
          -- NOTE of the source: byte_size is hard-coded to 1 here.
          match env.core.readMem (child.memoryLocation % u32Mod) 1 with
          | none => some (Except.error DebugError.probe)
          | some buff =>
            let thisEnumConstValue := toString (buff.headD 0)
            let enumeratorValue :=
              match enumeratorValues.find? (fun enumeratorVariable =>
                enumeratorVariable.getValue = thisEnumConstValue) with
              | some thisEnum => thisEnum.name
              | none => "<ERROR: Unresolved enum value>"
            some (Except.ok (((child.setValue
              (child.typeName ++ "::" ++ enumeratorValue))).withChildren
              none)))
    | DwTag.arrayType =>
      match node.attrGet DwAt.typeAttr with
      | some (.unitRef unitRef) =>
        obindE (processTree fuel env u node Variable.new frameBase
            programCounter)
          (fun subrangeVariable =>
            let child := child.withData { child.data with
              rangeLowerBound := subrangeVariable.rangeLowerBound
              rangeUpperBound := subrangeVariable.rangeUpperBound }
            let child :=
              if child.rangeLowerBound < 0 ∨ child.rangeUpperBound < 0 then
                child.setValue ("UNIMPLEMENTED: Array has a sub-range of " ++
                  toString child.rangeLowerBound ++ ".." ++
                  toString child.rangeUpperBound ++ " for ")
              else child
            arrayMembers fuel env u unitRef subrangeVariable.rangeUpperBound
              child.rangeLowerBound
              ((child.rangeUpperBound - child.rangeLowerBound).toNat) child
              frameBase programCounter)
      | some otherAttributeValue =>
        some (Except.ok (child.setValue
          ("UNIMPLEMENTED: Attribute Value for DW_AT_type " ++
            otherAttributeValue.render)))
      | none =>
        some (Except.ok (child.setValue
          ("ERROR: No Attribute Value for DW_AT_type for variable " ++
            child.name)))
    | DwTag.unionType =>
      obindE (processTree fuel env u node child frameBase programCounter)
        (fun child =>
          if child.children.isNone then
            some (Except.ok (child.setValue child.typeName))
          else some (Except.ok child))
    | DwTag.subroutineType =>
      match node.attrGet DwAt.typeAttr with
      | some (.unitRef unitRef) =>
        match u.dieAt unitRef with
        | none => some (Except.error DebugError.parseErr)
        | some subroutineTypeNode =>
          some (Except.ok (child.withData { child.data with
            typeName := match subroutineTypeNode.attrGet DwAt.name with
              | some nameAttr => extractName nameAttr
              | none => "" }))
      | some otherAttributeValue =>
        some (Except.ok (child.setValue
          ("UNIMPLEMENTED: Attribute Value for DW_AT_type " ++
            otherAttributeValue.render)))
      | none =>
        some (Except.ok (((child.setValue "<No Return Value>")).withData
          { (child.setValue "<No Return Value>").data with typeName := "" }))
    | other =>
      let child := child.withData { child.data with
        typeName := "<UNIMPLEMENTED: type : " ++ other.render ++ ">" }
      some (Except.ok ((child.setValue child.typeName).withChildren none))
termination_by structural fuel

/-- The per-index loop of the `DW_TAG_array_type` arm: clone the
element-type subtree for each index in the subrange. -/
def arrayMembers (fuel : Nat) (env : DebugEnv) (u : UnitM) (unitRef : Nat)
    (subrangeUpperBound : Int) (arrayMemberIndex : Int) (count : Nat)
    (child : Variable) (frameBase programCounter : Nat) :
    Option (Except DebugError Variable) :=
  match fuel with
  | 0 => none
  | fuel + 1 =>
    match count with
    | 0 => some (Except.ok child)
    | count + 1 =>
      match u.dieAt unitRef with
      | none => some (Except.error DebugError.parseErr)
      | some arrayMemberTypeNode =>
        obindE (ptna fuel env u arrayMemberTypeNode child Variable.new
            frameBase programCounter)
          (fun pc' =>
            let child := pc'.1
            let arrayMemberVariable := pc'.2
            let child := child.withData { child.data with
              typeName := "[" ++ arrayMemberVariable.name ++ ";" ++
                toString subrangeUpperBound ++ "]" }
            let arrayMemberVariable := arrayMemberVariable.withData
              { arrayMemberVariable.data with
                memberIndex := some arrayMemberIndex
                name := "__" ++ toString arrayMemberIndex
                kind := VariableKind.indexed
                file := child.file
                line := child.line }
            obindE (extractType fuel env u arrayMemberTypeNode child
                arrayMemberVariable frameBase programCounter)
              (fun arrayMemberVariable =>
                let arrayMemberVariable := arrayMemberVariable.withData
                  { arrayMemberVariable.data with
                    inclusion := VariableInclusion.includeV }
                arrayMembers fuel env u unitRef subrangeUpperBound
                  (arrayMemberIndex + 1) count
                  (child.addChildVariable arrayMemberVariable env.core)
                  frameBase programCounter))

termination_by structural fuel
end

/-! ## Function DIEs and the frame machinery of `debug/mod.rs` -/

/-- Does any of the ranges cover the address (the
`while let Ok(Some(ranges)) = ranges.next()` checks)? -/
def rangesCover (ranges : List (Nat × Nat)) (address : Nat) : Bool :=
  ranges.any (fun rg => decide (rg.1 ≤ address ∧ address < rg.2))

/-- `FunctionDie`: a subprogram DIE, or an inlined subroutine together
with its abstract-origin DIE. -/
structure FunctionDie where
  functionDie : Die
  isInline : Bool
  abstractDie : Option Die

/-- `FunctionDie::get_attribute`: for inlined functions fall back to the
abstract instance when the concrete one lacks the attribute. -/
def FunctionDie.getAttribute (f : FunctionDie) (attributeName : DwAt) :
    Option AttrVal :=
  let concreteAttr := f.functionDie.attrGet attributeName
  if f.isInline ∧ concreteAttr.isNone then
    match f.abstractDie with
    | some origin => origin.attrGet attributeName
    | none => none
  else concreteAttr

/-- `FunctionDie::function_name`: only a `DebugStrRef` name resolves. -/
def FunctionDie.functionName (f : FunctionDie) : Option String :=
  match f.getAttribute DwAt.name with
  | some (.debugStrRef fnName) => some fnName
  | some _ => none
  | none => none

/-- The entry scan of `UnitInfo::find_inlined_function`: among the
cursor's entries, the first `DW_TAG_inlined_subroutine` covering the
address; its `DW_AT_abstract_origin` must be a `UnitRef` (the source
panics on other values; a missing attribute returns `None`). -/
def searchInlinedEntries (u : UnitM) (address : Nat) :
    List (Nat × Die) → Option FunctionDie
  | [] => none
  | (_, current) :: rest =>
    if current.tag = DwTag.inlinedSubroutine ∧
        rangesCover current.ranges address then
      match current.attrGet DwAt.abstractOrigin with
      | some (.unitRef unitRef) =>
        match u.dieAt unitRef with
        | some abstractDie =>
          some { functionDie := current, isInline := true
                 abstractDie := some abstractDie }
        | none => none
      | some _ => none
      | none => none
    else searchInlinedEntries u address rest

/-- `UnitInfo::find_inlined_function`: position a cursor at `offset` and
scan while the cumulative depth change stays non-negative. -/
def findInlinedFunction (u : UnitM) (address offset : Nat) :
    Option FunctionDie :=
  let flat := flattenDepth 0 u.root
  let positioned := flat.dropWhile (fun p => p.2.offset ≠ offset)
  match positioned with
  | [] => none
  | (startDepth, _) :: _ =>
    searchInlinedEntries u address
      (positioned.takeWhile (fun p => startDepth ≤ p.1))

/-- The DFS scan of `UnitInfo::get_function_die`: the first
`DW_TAG_subprogram` whose ranges cover the address; with `findInlined`
the inlined-subroutine search runs inside it first. -/
def searchFunctionDie (u : UnitM) (address : Nat) (findInlined : Bool) :
    List (Nat × Die) → Option FunctionDie
  | [] => none
  | (_, current) :: rest =>
    if current.tag = DwTag.subprogram ∧ rangesCover current.ranges address
    then
      if findInlined then
        match findInlinedFunction u address current.offset with
        | some die => some die
        | none =>
          some { functionDie := current, isInline := false
                 abstractDie := none }
      else
        some { functionDie := current, isInline := false
               abstractDie := none }
    else searchFunctionDie u address findInlined rest

/-- `UnitInfo::get_function_die`. -/
def getFunctionDie (u : UnitM) (address : Nat) (findInlined : Bool) :
    Option FunctionDie :=
  searchFunctionDie u address findInlined (flattenDepth 0 u.root)

/-- `SourceLocation` of `debug/mod.rs` (`PathBuf` directories are
modelled as strings). -/
structure SourceLocation where
  line : Option Nat
  column : Option ColumnTypeM
  file : Option String
  directory : Option String
deriving DecidableEq, Repr

/-- Build the `SourceLocation` returned for a row in
`get_source_location`; `none` models the panics of the two `unwrap`
calls (a row without a file entry, or a file that does not resolve). -/
def mkSourceLocationFromRow (u : UnitM) (row : RowM) :
    Option SourceLocation :=
  match row.file with
  | none => none
  | some fileEntry =>
    match findFileAndDirectory u fileEntry with
    | none => none
    | some fd =>
      some { line := row.line, column := some row.column, file := fd.1
             directory := fd.2 }

/-- Outcome of scanning one covering unit range in
`get_source_location`. -/
inductive ScanOutcome where
  | panicked
  | fellThrough
  | returned (loc : Option SourceLocation)

/-- The row scan of `get_source_location`: the row at exactly the
address, else the last row before it once a later row appears. -/
def scanRows (u : UnitM) (address : Nat) (previousRow : Option RowM) :
    List RowM → ScanOutcome
  | [] => ScanOutcome.fellThrough
  | row :: rest =>
    if row.address = address then
      match mkSourceLocationFromRow u row with
      | none => ScanOutcome.panicked
      | some loc => ScanOutcome.returned (some loc)
    else if address < row.address ∧ previousRow.isSome then
      match previousRow with
      | none => ScanOutcome.panicked
      | some prev =>
        match mkSourceLocationFromRow u prev with
        | none => ScanOutcome.panicked
        | some loc => ScanOutcome.returned (some loc)
    else scanRows u address (some row) rest

/-- The body run for a covering unit range in `get_source_location`:
no line program or no covering sequence returns `None` for the whole
function; otherwise the matching sequence's rows are scanned. -/
def rangeOutcome (u : UnitM) (address : Nat) : ScanOutcome :=
  match u.lineProg with
  | none => ScanOutcome.returned none
  | some lp =>
    match lp.sequences.find? (fun seq =>
      decide (seq.start ≤ address ∧ address < seq.stop)) with
    | none => ScanOutcome.returned none
    | some targetSeq => scanRows u address none targetSeq.rows

/-- The unit-ranges loop of `get_source_location`. -/
def unitRangesLoop (u : UnitM) (address : Nat) :
    List (Nat × Nat) → ScanOutcome
  | [] => ScanOutcome.fellThrough
  | rg :: rest =>
    if rg.1 ≤ address ∧ address < rg.2 then
      match rangeOutcome u address with
      | ScanOutcome.fellThrough => unitRangesLoop u address rest
      | outcome => outcome
    else unitRangesLoop u address rest

/-- The unit loop of `get_source_location`. -/
def sourceLocationUnitsLoop (address : Nat) :
    List UnitM → Option (Option SourceLocation)
  | [] => some none
  | u :: rest =>
    match unitRangesLoop u address u.unitRanges with
    | ScanOutcome.panicked => none
    | ScanOutcome.returned loc => some loc
    | ScanOutcome.fellThrough => sourceLocationUnitsLoop address rest

/-- `DebugInfo::get_source_location`. -/
def getSourceLocation (env : DebugEnv) (address : Nat) :
    Option (Option SourceLocation) :=
  sourceLocationUnitsLoop address env.units

/-- A `StackFrame`. -/
structure StackFrame where
  id : Nat
  functionName : String
  sourceLocation : Option SourceLocation
  registers : Registers
  pc : Nat
  frameVariables : List Variable

/-- `UnitInfo::get_function_variables`: process the function DIE's
subtree under a fresh `<locals>` root. -/
def getFunctionVariables (fuel : Nat) (env : DebugEnv) (u : UnitM)
    (dieCursorState : FunctionDie) (frameBase programCounter : Nat) :
    Option (Except DebugError (List Variable)) :=
  match u.dieAt dieCursorState.functionDie.offset with
  | none => some (Except.error DebugError.parseErr)
  | some functionNode =>
    let rootVariable := Variable.new.withData
      { Variable.new.data with name := "<locals>" }
    obindE (processTree fuel env u functionNode rootVariable frameBase
        programCounter)
      (fun rootVariable =>
        some (Except.ok ((rootVariable.children).getD [])))

/-- The unit loop of `DebugInfo::get_stackframe_info`, with the
unknown-function fallback frame after the last unit. -/
def stackframeUnitsLoop (fuel : Nat) (env : DebugEnv)
    (address frameCount : Nat) (registers : Registers)
    (inlinedFunction : Bool) (unknownFunction : String) :
    List UnitM → Option (Except DebugError StackFrame)
  | [] =>
    match getSourceLocation env address with
    | none => none
    | some sourceLocation =>
      some (Except.ok
        { id := frameCount
          functionName := unknownFunction
          sourceLocation := sourceLocation
          registers := registers
          pc := address % u32Mod
          frameVariables := [] })
  | u :: rest =>
    match getFunctionDie u address inlinedFunction with
    | none =>
      stackframeUnitsLoop fuel env address frameCount registers
        inlinedFunction unknownFunction rest
    | some dieCursorState =>
      let functionName := (dieCursorState.functionName).getD unknownFunction
      match getFunctionVariables fuel env u dieCursorState
          ((registers.getCanonicalFrameAddress).getD 0)
          ((registers.getReturnAddress).getD 0) with
      | none => none
      | some (Except.error e) => some (Except.error e)
      | some (Except.ok frameVariables) =>
        match getSourceLocation env address with
        | none => none
        | some sourceLocation =>
          some (Except.ok
            { id := (registers.getCanonicalFrameAddress).getD 0
              functionName := functionName
              sourceLocation := sourceLocation
              registers := registers
              pc := address % u32Mod
              frameVariables := frameVariables })

/-- `DebugInfo::get_stackframe_info`. -/
def getStackframeInfo (fuel : Nat) (env : DebugEnv)
    (address frameCount : Nat) (registers : Registers)
    (inlinedFunction : Bool) : Option (Except DebugError StackFrame) :=
  let unknownFunction := "<unknown function @ " ++ hexFmt010 address ++ ">"
  stackframeUnitsLoop fuel env address frameCount registers inlinedFunction
    unknownFunction env.units

/-! ## The stack-frame iterator (`StackFrameIterator::next`) -/

/-- The inline-function state machine. -/
inductive InlineFunctionState where
  | inlinedCallSite (callLine : Option Nat) (callFile : Option String)
      (callDirectory : Option String) (callColumn : Option Nat)
  | noInlining

/-- The iterator state: frame counter, current program counter
(`none` ends the iteration), register file and inlining state. -/
structure IterState where
  frameCount : Nat
  pc : Option Nat
  registers : Registers
  inliningState : InlineFunctionState

/-- `StackFrameIterator::new`. -/
def stackFrameIteratorNew (core : CoreM) (address : Nat) : IterState :=
  { frameCount := 0
    pc := some address
    registers := Registers.fromCore core
    inliningState := InlineFunctionState.noInlining }

/-- The `units` loop at the top of `next`: the first unit yielding a
function DIE for the program counter (searched with
`find_inlined = true`), after which the source breaks. -/
def findUnitFunctionDie (address : Nat) :
    List UnitM → Option (UnitM × FunctionDie)
  | [] => none
  | u :: rest =>
    match getFunctionDie u address true with
    | some die => some (u, die)
    | none => findUnitFunctionDie address rest

/-- Resolution of the `DW_AT_call_file` / `DW_AT_call_line` /
`DW_AT_call_column` attributes of an inlined subroutine into the next
`InlinedCallSite` state; `none` models the `unwrap` panic when the file
entry does not resolve. -/
def inlineCallAttrs (u : UnitM) (dieCursorState : FunctionDie) :
    Option InlineFunctionState :=
  let callColumn :=
    (dieCursorState.getAttribute DwAt.callColumn).bind AttrVal.udataValue
  let callFileIndex :=
    (dieCursorState.getAttribute DwAt.callFile).bind AttrVal.udataValue
  let callLine :=
    (dieCursorState.getAttribute DwAt.callLine).bind AttrVal.udataValue
  let fileDir : Option (Option String × Option String) :=
    match callFileIndex with
    | some 0 => some (none, none)
    | some n =>
      match u.lineProg with
      | some lp =>
        match lp.file n with
        | some fileEntry => findFileAndDirectory u fileEntry
        | none => some (none, none)
      | none => some (none, none)
    | none => some (none, none)
  match fileDir with
  | none => none
  | some fd =>
    some (InlineFunctionState.inlinedCallSite callLine fd.1 fd.2 callColumn)

/-- The inline-detection block at the top of `next` (source lines
292-382): consume a pending call-site marker, or scan for an inlined
function at the program counter.  Returns
`(in_inlined_function, new inlining state, consumed call-site info)`. -/
def inlineDetection (env : DebugEnv) (inliningState : InlineFunctionState)
    (pc : Nat) :
    Option (Bool × InlineFunctionState × Option InlineFunctionState) :=
  match inliningState with
  | InlineFunctionState.inlinedCallSite a b c d =>
    some (false, InlineFunctionState.noInlining,
      some (InlineFunctionState.inlinedCallSite a b c d))
  | InlineFunctionState.noInlining =>
    match findUnitFunctionDie pc env.units with
    | none => some (false, InlineFunctionState.noInlining, none)
    | some (u, dieCursorState) =>
      if dieCursorState.isInline then
        match inlineCallAttrs u dieCursorState with
        | none => none
        | some newState => some (true, newState, none)
      else some (false, InlineFunctionState.noInlining, none)
  
/-- The CFA computation of `next`: outer `none` is the
`unimplemented!()` panic on an `Expression` CFA rule, inner `none` the
early `return None` when the rule's register has no value. -/
def computeCfa (registers : Registers) (row : UnwindRow) :
    Option (Option Nat) :=
  match row.cfa with
  | CfaRule.expressionRule => none
  | CfaRule.registerAndOffset reg offset =>
    match registers.getByDwarfRegisterNumber reg with
    | none => some none
    | some regVal => some (some (toU32 ((regVal : Int) + offset)))

/-- The register-rollback loop of `next` (registers 0 to 15, register
13 skipped).  `none` is the `unimplemented!()` panic on an unhandled
rule; `Except.error` carries the partially updated register file when a
memory read fails (the source then returns `None` from `next`). -/
def rollbackLoop (env : DebugEnv) (pc cfa : Nat)
    (rules : Nat → RegisterRule) (registers : Registers) (i : Nat) :
    Nat → Option (Except Registers Registers)
  | 0 => some (Except.ok registers)
  | remaining + 1 =>
    if i = 13 then
      rollbackLoop env pc cfa rules registers (i + 1) remaining
    else
      match rules i with
      | RegisterRule.undefinedRule =>
        let newValue : Option Nat :=
          if i = 4 ∨ i = 5 ∨ i = 6 ∨ i = 7 ∨ i = 8 ∨ i = 10 ∨ i = 11 ∨
              i = 14 then
            registers.getByDwarfRegisterNumber i
          else if i = 15 then some (pc % u32Mod)
          else none
        rollbackLoop env pc cfa rules
          (registers.setByDwarfRegisterNumber i newValue) (i + 1) remaining
      | RegisterRule.sameValue =>
        rollbackLoop env pc cfa rules
          (registers.setByDwarfRegisterNumber i
            (registers.getByDwarfRegisterNumber i)) (i + 1) remaining
      | RegisterRule.offsetRule o =>
        let addr := toU32 ((cfa : Int) + o)
        match env.core.readMem addr 4 with
        | none => some (Except.error registers)
        | some buff =>
          rollbackLoop env pc cfa rules
            (registers.setByDwarfRegisterNumber i
              (some (u32FromLeBytes buff))) (i + 1) remaining
      | RegisterRule.otherRule => none

/-- The whole register rollback of a physical frame: run the loop over
registers 0-15, then write the CFA into the register file. -/
def rollbackRegisters (env : DebugEnv) (pc cfa : Nat)
    (rules : Nat → RegisterRule) (registers : Registers) :
    Option (Except Registers Registers) :=
  match rollbackLoop env pc cfa rules registers 0 16 with
  | none => none
  | some (Except.error partialRegisters) =>
    some (Except.error partialRegisters)
  | some (Except.ok newRegisters) =>
    some (Except.ok (newRegisters.setCanonicalFrameAddress (some cfa)))

/-- The inline-caller patch (step 4): overwrite the frame's source
location with the consumed call-site information. -/
def patchCallSite (frame : StackFrame)
    (info : Option InlineFunctionState) : StackFrame :=
  match info with
  | some (InlineFunctionState.inlinedCallSite callLine callFile
      callDirectory callColumn) =>
    let loc : SourceLocation :=
      { line := callLine
        column := callColumn.map (fun c =>
          if c = 0 then ColumnTypeM.leftEdge else ColumnTypeM.column c)
        file := callFile
        directory := callDirectory }
    { frame with sourceLocation := some loc }
  | _ => frame

/-- `StackFrameIterator::next`: one step of the unwinder.  The result
is the yielded item together with the successor state; `none` models a
panicking path. -/
def stackFrameNext (fuel : Nat) (env : DebugEnv) (s : IterState) :
    Option (Option StackFrame × IterState) :=
  match s.pc with
  | none => some (none, s)
  | some pc =>
    match inlineDetection env s.inliningState pc with
    | none => none
    | some det =>
      let inInlinedFunction := det.1
      let inliningState1 := det.2.1
      let inlineCallSiteInfo := det.2.2
      let s1 := { s with inliningState := inliningState1 }
      match env.unwindInfoAt pc with
      | none => some (none, s1)
      | some unwindInfo =>
        match computeCfa s.registers unwindInfo with
        | none => none
        | some none => some (none, s1)
        | some (some currentCfa) =>
          match getStackframeInfo fuel env pc s.frameCount s.registers
              inInlinedFunction with
          | none => none
          | some frameRes =>
            let returnFrame : Option StackFrame :=
              match frameRes with
              | Except.ok frame => some (patchCallSite frame inlineCallSiteInfo)
              | Except.error _ => none
            if inInlinedFunction then
              some (returnFrame, { s1 with frameCount := s1.frameCount + 1 })
            else
              match rollbackRegisters env pc currentCfa unwindInfo.regRule
                  s.registers with
              | none => none
              | some (Except.error partialRegisters) =>
                some (none, { s1 with registers := partialRegisters })
              | some (Except.ok newRegisters) =>
                let s2 := { s1 with registers := newRegisters
                                    frameCount := s1.frameCount + 1 }
                let newPc0 := (newRegisters.getProgramCounter).map clearBit0
                let newPc := match newPc0 with
                  | some np => if np = pc then none else some np
                  | none => none
                some (returnFrame, { s2 with pc := newPc })

/-! ## Breakpoint mapping (`DebugInfo::get_breakpoint_location`) -/

/-- The row filter: keep the address and column of every row whose
resolved path equals the requested path and whose line equals the
requested line. -/
def collectBpRows (u : UnitM) (path : String) (line : Nat)
    (rows : List RowM) : List (Nat × ColumnTypeM) :=
  rows.filterMap (fun row =>
    let rowPath := row.file.bind (fun fileEntry => getPath u fileEntry)
    if rowPath ≠ some path then none
    else match row.line with
      | some curLine =>
        if curLine = line then some (row.address, row.column) else none
      | none => none)

/-- Candidate collection for one unit: for every file-name entry of the
line program resolving to the requested path, scan all rows. -/
def collectBpUnit (u : UnitM) (path : String) (line : Nat) :
    List (Nat × ColumnTypeM) :=
  match u.lineProg with
  | none => []
  | some lp =>
    (lp.fileNames.map (fun fileName =>
      if getPath u fileName = some path then
        collectBpRows u path line lp.allRows
      else [])).flatten

/-- Candidate collection over all units. -/
def collectBp (env : DebugEnv) (path : String) (line : Nat) :
    List (Nat × ColumnTypeM) :=
  (env.units.map (fun u => collectBpUnit u path line)).flatten

/-- The sort order of the candidate list: by column, then by address
(the source's `sort_by` comparator).  It is antisymmetric, so the
sorted list is unique and stability does not matter. -/
def bpLe (a b : Nat × ColumnTypeM) : Prop :=
  colLt a.2 b.2 = true ∨ (a.2 = b.2 ∧ a.1 ≤ b.1)

instance : DecidableRel bpLe := fun a b => by
  unfold bpLe
  infer_instance

/-- The best-candidate scan for a requested column: walk the sorted
list, stopping at the first candidate past the requested column and
keeping the first candidate of each strictly larger column group. -/
def bpScan (searchCol : ColumnTypeM) (best : Nat × ColumnTypeM) :
    List (Nat × ColumnTypeM) → Nat × ColumnTypeM
  | [] => best
  | loc :: rest =>
    if colLt searchCol loc.2 then best
    else bpScan searchCol (if colLt best.2 loc.2 then loc else best) rest

/-- `DebugInfo::get_breakpoint_location`. -/
def getBreakpointLocation (env : DebugEnv) (path : String) (line : Nat)
    (column : Option Nat) : Except DebugError (Option Nat) :=
  let locations := collectBp env path line
  match locations with
  | [] => Except.ok none
  | [l] => Except.ok (some l.1)
  | _ :: _ :: _ =>
    let sorted := List.insertionSort bpLe locations
    match column with
    | some searchColRaw =>
      let searchCol := if searchColRaw = 0 then ColumnTypeM.leftEdge
        else ColumnTypeM.column searchColRaw
      match sorted with
      | [] => Except.ok none
      | best :: rest => Except.ok (some (bpScan searchCol best rest).1)
    | none =>
      match sorted with
      | [] => Except.ok none
      | first :: _ => Except.ok (some first.1)

/-- The value the claim assigns to register `i` after rollback, in
terms of the original register file. -/
def ruleExpected (env : DebugEnv) (pc cfa : Nat)
    (rules : Nat → RegisterRule) (original : Nat → Option Nat) (i : Nat) :
    Option Nat :=
  match rules i with
  | RegisterRule.undefinedRule =>
    if i = 4 ∨ i = 5 ∨ i = 6 ∨ i = 7 ∨ i = 8 ∨ i = 10 ∨ i = 11 ∨ i = 14
    then original i
    else if i = 15 then some (pc % u32Mod) else none
  | RegisterRule.sameValue => original i
  | RegisterRule.offsetRule o =>
    (env.core.readMem (toU32 ((cfa : Int) + o)) 4).map u32FromLeBytes
  | RegisterRule.otherRule => none

/-- Concrete core for the C5 witness: one readable word at address
216. -/
def coreC5 : CoreM :=
  { readMem := fun addr len =>
      if addr = 216 ∧ len = 4 then some [161, 16, 0, 8] else none
    readReg := fun _ => none
    architecture := Architecture.arm
    numPlatformRegisters := 0 }

def envC5 : DebugEnv :=
  { units := [], unwindInfoAt := fun _ => none, core := coreC5 }

def regsC5 : Registers :=
  { values := fun j => if j < 16 then some (100 + j) else none
    architecture := Architecture.arm }

def rulesC5 : Nat → RegisterRule := fun i =>
  if i = 14 then RegisterRule.offsetRule (-4)
  else if i = 15 then RegisterRule.undefinedRule
  else RegisterRule.sameValue

/-! ## Concrete unwinder environments (used by the C1 and C4 results) -/

/-- A compilation unit with a single `foo` subprogram covering
4096-8192 and no line program. -/
def unitC1 : UnitM :=
  { root := Die.mk 0 (DwTag.unknown "DW_TAG_compile_unit") [] []
      [Die.mk 1 DwTag.subprogram [(DwAt.name, AttrVal.debugStrRef "foo")]
        [(4096, 8192)] []]
    lineProg := none
    compDir := none
    unitRanges := [] }

def coreC1 : CoreM :=
  { readMem := fun addr len =>
      if addr = 536871180 ∧ len = 4 then some [161, 16, 0, 8] else none
    readReg := fun _ => none
    architecture := Architecture.arm
    numPlatformRegisters := 0 }

/-- Unwind row of scenario S1: CFA = r13 + 16, r14 saved at offset -4,
everything else unchanged. -/
def uwC1 : UnwindRow :=
  { cfa := CfaRule.registerAndOffset 13 16
    regRule := fun i =>
      if i = 14 then RegisterRule.offsetRule (-4) else RegisterRule.sameValue }

def envC1 : DebugEnv :=
  { units := [unitC1]
    unwindInfoAt := fun a => if a = 4132 then some uwC1 else none
    core := coreC1 }

def regsC1 : Registers :=
  { values := fun j =>
      if j = 13 then some 536871168
      else if j = 14 then some 1000
      else if j = 15 then some 2000
      else none
    architecture := Architecture.arm }

def s0C1 : IterState :=
  { frameCount := 0
    pc := some 4132
    registers := regsC1
    inliningState := InlineFunctionState.noInlining }

/-- An environment with no debug info at all but unwind rows whose
rules keep every register; the initial program counter exceeds 32
bits. -/
def uwC4 : UnwindRow :=
  { cfa := CfaRule.registerAndOffset 13 0
    regRule := fun _ => RegisterRule.sameValue }

def envC4 : DebugEnv :=
  { units := []
    unwindInfoAt := fun a =>
      if a = 4294971428 ∨ a = 4132 then some uwC4 else none
    core := coreC1 }

def regsC4 : Registers :=
  { values := fun j =>
      if j = 13 then some 100 else if j = 14 then some 4132 else none
    architecture := Architecture.arm }

def s0C4 : IterState :=
  { frameCount := 0
    pc := some 4294971428
    registers := regsC4
    inliningState := InlineFunctionState.noInlining }


/-- A default frame for the extraction helpers below. -/
def dummyFrame : StackFrame :=
  { id := 0, functionName := "", sourceLocation := none,
    registers := regsC1, pc := 0, frameVariables := [] }

/-- The frame produced by the first step on the C1 environment. -/
def frameC1 : StackFrame :=
  match stackFrameNext 20 envC1 s0C1 with
  | some (some f, _) => f
  | _ => dummyFrame

/-- The successor state of the first step on the C1 environment. -/
def sC1' : IterState :=
  match stackFrameNext 20 envC1 s0C1 with
  | some (_, s') => s'
  | none => s0C1

/-! ## Claim C3 -/

/-- A `u32` base type DIE. -/
def pointeeDieC3 : Die :=
  Die.mk 20 DwTag.baseType
    [(DwAt.name, AttrVal.debugStrRef "u32"),
     (DwAt.byteSize, AttrVal.udata 4)] [] []

/-- A pointer-type DIE referencing the base type. -/
def ptrTypeDieC3 : Die :=
  Die.mk 10 DwTag.pointerType [(DwAt.typeAttr, AttrVal.unitRef 20)] [] []

/-- A variable of the pointer type. -/
def varDieC3 : Die :=
  Die.mk 2 DwTag.variableTag
    [(DwAt.name, AttrVal.debugStrRef "p"),
     (DwAt.typeAttr, AttrVal.unitRef 10)] [] []

def rootC3 : Die :=
  Die.mk 0 (DwTag.unknown "DW_TAG_compile_unit") [] []
    [varDieC3, ptrTypeDieC3, pointeeDieC3]

def unitC3 : UnitM :=
  { root := rootC3, lineProg := none, compDir := none, unitRanges := [] }

/-- A core on which every target-memory read fails. -/
def coreFail : CoreM :=
  { readMem := fun _ _ => none
    readReg := fun _ => none
    architecture := Architecture.arm
    numPlatformRegisters := 0 }

def envC3 : DebugEnv :=
  { units := [unitC3], unwindInfoAt := fun _ => none, core := coreFail }

/-! ## Claim C6 -/

/-- A base-type DIE with a pathological 2^32 byte size (DWARF data is
attacker-controlled input). -/
def bigBaseDieC6 : Die :=
  Die.mk 30 DwTag.baseType
    [(DwAt.name, AttrVal.debugStrRef "u8"),
     (DwAt.byteSize, AttrVal.udata 4294967296)] [] []

/-- An array member at index 2^32 whose base location is 1. -/
def bigMemberVarC6 : Variable :=
  Variable.mk
    { name := "__4294967296"
      kind := VariableKind.indexed
      memoryLocation := 1
      memberIndex := some 4294967296 } none

/-- The fresh member variable after `process_tree_node_attributes` on
the element-type node: name from the DIE, location inherited from the
array variable. -/
def elemFreshMember (en : String) (loc : Nat) : Variable :=
  Variable.mk { name := en, memoryLocation := loc } none

/-- The element variable after `extract_type` on the base-type node. -/
def elemTyped (en : String) (s : Nat) (d : VarData) (loc : Nat) :
    Variable :=
  Variable.mk { d with typeName := en, byteSize := s
                       memoryLocation := loc } none

/-- The subrange variable produced by the array branch's
`process_tree` pass. -/
def subVarResult (lo hi : Nat) : Variable :=
  Variable.mk { rangeLowerBound := toI64 lo, rangeUpperBound := toI64 hi }
    none

/-- The element-type DIE the C6 lemmas quantify over. -/
def elemDieOf (eoff : Nat) (en : String) (s : Nat)
    (erngs : List (Nat × Nat)) : Die :=
  Die.mk eoff DwTag.baseType
    [(DwAt.name, AttrVal.debugStrRef en),
     (DwAt.byteSize, AttrVal.udata s)] erngs []

/-- The array-type DIE with its subrange child. -/
def arrDieOf (off soff : Nat) (r lo hi : Nat)
    (arngs srngs : List (Nat × Nat)) : Die :=
  Die.mk off DwTag.arrayType [(DwAt.typeAttr, AttrVal.unitRef r)] arngs
    [Die.mk soff DwTag.subrangeType
      [(DwAt.lowerBound, AttrVal.udata lo),
       (DwAt.upperBound, AttrVal.udata hi)] srngs []]

/-- The fully resolved array element variable appended for index `idx`
(before `extract_value` materializes its value string). -/
def arrayElemVar (d : VarData) (en : String) (s idx : Nat) : Variable :=
  Variable.mk
    { name := "__" ++ toString (idx : Int)
      typeName := en
      value := ""
      kind := VariableKind.indexed
      inclusion := VariableInclusion.includeV
      memoryLocation := d.memoryLocation + idx * s
      byteSize := s
      file := d.file
      line := d.line
      memberIndex := some (idx : Int)
      rangeLowerBound := 0
      rangeUpperBound := 0
      role := VariantRole.nonVariant } none

/-- The array variable after one iteration of the element loop: type
name set, the resolved element appended to the children. -/
def stepChild (env : DebugEnv) (d : VarData) (cc : Option (List Variable))
    (up : Int) (en : String) (s idx : Nat) : Variable :=
  Variable.mk { d with typeName := "[" ++ en ++ ";" ++ toString up ++ "]" }
    (some (cc.getD [] ++ [(arrayElemVar d en s idx).extractValue env.core]))

/-- A unit whose only DIE is a `u16` base type at offset 40. -/
def unitC6 : UnitM :=
  { root := elemDieOf 40 "u16" 2 []
    lineProg := none
    compDir := none
    unitRanges := [] }

def envC6 : DebugEnv :=
  { units := [unitC6], unwindInfoAt := fun _ => none, core := coreFail }

/-- An array variable at base address 1000 before type resolution. -/
def childC6 : Variable := Variable.mk { memoryLocation := 1000 } none

/-! ## Claim C8 -/

/-- A line program whose rows for line 7 of `/a.c` appear in the order
(address 200, column 7) then (address 100, column 5). -/
def lineProgC8 : LineProgM :=
  { fileNames := [{ pathName := "/a.c", directory := none }]
    sequences :=
      [{ start := 0
         stop := 1000
         rows :=
          [{ address := 200, line := some 7
             column := ColumnTypeM.column 7
             file := some { pathName := "/a.c", directory := none } },
           { address := 100, line := some 7
             column := ColumnTypeM.column 5
             file := some { pathName := "/a.c", directory := none } }] }] }

def unitC8 : UnitM :=
  { root := Die.mk 0 (DwTag.unknown "DW_TAG_compile_unit") [] [] []
    lineProg := some lineProgC8
    compDir := none
    unitRanges := [] }

def envC8 : DebugEnv :=
  { units := [unitC8], unwindInfoAt := fun _ => none, core := coreFail }

instance : IsTotal (Nat × ColumnTypeM) bpLe := by
  constructor
  intro a b
  obtain ⟨a1, a2⟩ := a
  obtain ⟨b1, b2⟩ := b
  cases a2 <;> cases b2 <;> simp [bpLe, colLt] <;> omega

instance : IsTrans (Nat × ColumnTypeM) bpLe := by
  constructor
  intro a b c hab hbc
  obtain ⟨a1, a2⟩ := a
  obtain ⟨b1, b2⟩ := b
  obtain ⟨c1, c2⟩ := c
  cases a2 <;> cases b2 <;> cases c2 <;> simp_all [bpLe, colLt] <;> omega


/-! ## Claim C2 -/

/-- Claim C2: for every memory-AP capability configuration and every
64-bit address whose upper 32 bits are non-zero, `set_target_address`
returns `OutOfBounds` exactly when the AP lacks the large-address
extension, and when it returns `OutOfBounds` no write to the `TAR`
register has been issued. -/
theorem setTargetAddress_outOfBounds_iff
    (hasLAE : Bool) (address : Nat) (haddr : address < u64Mod)
    (hupper : address / u32Mod ≠ 0) :
    ((setTargetAddress hasLAE address).2 =
        Except.error ArmError.outOfBounds ↔ hasLAE = false) ∧
    ((setTargetAddress hasLAE address).2 =
        Except.error ArmError.outOfBounds →
      ∀ w ∈ (setTargetAddress hasLAE address).1, w.isTar = false) := by
  have hlt : address / u32Mod < u32Mod := by
    apply Nat.div_lt_of_lt_mul
    have : u32Mod * u32Mod = u64Mod := by norm_num [u32Mod, u64Mod]
    omega
  have hmod : (address / u32Mod) % u32Mod = address / u32Mod :=
    Nat.mod_eq_of_lt hlt
  cases hasLAE with
  | true =>
    constructor
    · simp [setTargetAddress]
    · intro h
      simp [setTargetAddress] at h
  | false =>
    constructor
    · simp [setTargetAddress, hmod, hupper]
    · intro _ w hw
      simp [setTargetAddress, hmod, hupper] at hw

/-- Witness for C2 (scenario S5 of the spec): a 64-bit address on an AP
without the large-address extension. -/
theorem setTargetAddress_outOfBounds_iff_witness :
    ((setTargetAddress false 4294967296).2 =
        Except.error ArmError.outOfBounds ↔ false = false) ∧
    ((setTargetAddress false 4294967296).2 =
        Except.error ArmError.outOfBounds →
      ∀ w ∈ (setTargetAddress false 4294967296).1, w.isTar = false) :=
  setTargetAddress_outOfBounds_iff false 4294967296 (by decide) (by decide)

/-! ## Claim C7 -/

/-- Claim C7: `base_address` composes `(base2 << 32) | (baseaddr << 12)`
in the ADIv5 wide format and `baseaddr << 12` in the legacy format, and
the low 12 bits of the result are always zero.  The hypotheses pin the
modelled register fields to their layout widths (`BASEADDR` is the
20-bit field of bits 31:12, `BASE2.BASEADDR` a 32-bit word). -/
theorem baseAddress_composition (base : BaseReg) (base2 : Base2Reg)
    (hb : base.baseaddr < 1048576) (hb2 : base2.baseaddr < u32Mod) :
    (base.format = BaseAddrFormat.adiV5 →
      baseAddress base base2 =
        (base2.baseaddr <<< 32) ||| (base.baseaddr <<< 12)) ∧
    (base.format = BaseAddrFormat.legacy →
      baseAddress base base2 = base.baseaddr <<< 12) ∧
    (∀ i < 12, (baseAddress base base2).testBit i = false) := by
  have hshift : (base.baseaddr <<< 12) % u32Mod = base.baseaddr <<< 12 := by
    apply Nat.mod_eq_of_lt
    have hsl : base.baseaddr <<< 12 = base.baseaddr * 4096 := by
      simp [Nat.shiftLeft_eq]
    rw [hsl]
    simp only [u32Mod]
    omega
  have hmod2 : base2.baseaddr % u32Mod = base2.baseaddr :=
    Nat.mod_eq_of_lt hb2
  refine ⟨?_, ?_, ?_⟩
  · intro hfmt
    simp [baseAddress, hfmt, hshift, hmod2]
  · intro hfmt
    have : base.format ≠ BaseAddrFormat.adiV5 := by
      rw [hfmt]; intro h; cases h
    simp [baseAddress, this, hshift]
  · intro i hi
    by_cases hfmt : base.format = BaseAddrFormat.adiV5
    · simp [baseAddress, hfmt, hshift, hmod2, Nat.testBit_lor,
        Nat.testBit_shiftLeft]
      omega
    · simp [baseAddress, hfmt, hshift, Nat.testBit_lor,
        Nat.testBit_shiftLeft]
      omega

/-- Witness for C7: a concrete wide-format base address. -/
theorem baseAddress_composition_witness :
    (BaseAddrFormat.adiV5 = BaseAddrFormat.adiV5 →
      baseAddress (BaseReg.mk BaseAddrFormat.adiV5 305441)
          (Base2Reg.mk 43981) =
        (43981 <<< 32) ||| (305441 <<< 12)) ∧
    (BaseAddrFormat.adiV5 = BaseAddrFormat.legacy →
      baseAddress (BaseReg.mk BaseAddrFormat.adiV5 305441)
          (Base2Reg.mk 43981) = 305441 <<< 12) ∧
    (∀ i < 12,
      (baseAddress (BaseReg.mk BaseAddrFormat.adiV5 305441)
        (Base2Reg.mk 43981)).testBit i = false) :=
  baseAddress_composition (BaseReg.mk BaseAddrFormat.adiV5 305441)
    (Base2Reg.mk 43981) (by decide) (by decide)

/-! ## Claim C10 -/

/-- The register-reading fold of `Registers::from_core`, characterized:
registers below the platform count hold exactly what the core read
returned (absent on a failed read), all others are absent. -/
theorem fromCoreStep_apply (core : CoreM) (vals : Nat → Option Nat)
    (j i : Nat) :
    fromCoreStep core vals j i =
      (match core.readReg j with
        | some v => if i = j then some v else vals i
        | none => vals i) := by
  unfold fromCoreStep
  rcases core.readReg j with _ | v
  · rfl
  · simp [regInsert]

theorem fromCore_loop_spec (core : CoreM) (n i : Nat) :
    ((List.range n).foldl (fromCoreStep core) (fun _ => none)) i =
      (if i < n then core.readReg i else none) := by
  induction n with
  | zero => simp
  | succ n ih =>
    rw [List.range_succ, List.foldl_append]
    simp only [List.foldl_cons, List.foldl_nil]
    rw [fromCoreStep_apply]
    rcases hread : core.readReg n with _ | v
    · rw [ih]
      rcases Nat.lt_trichotomy i n with h | h | h
      · simp [Nat.lt_succ_of_lt h, h]
      · subst h
        simp [hread]
      · have h1 : ¬ i < n := by omega
        have h2 : ¬ i < n + 1 := by omega
        simp [h1, h2]
    · by_cases hi : i = n
      · subst hi
        simp [hread]
      · simp only [hi, if_false]
        rw [ih]
        rcases Nat.lt_trichotomy i n with h | h | h
        · simp [Nat.lt_succ_of_lt h, h]
        · exact absurd h hi
        · have h1 : ¬ i < n := by omega
          have h2 : ¬ i < n + 1 := by omega
          simp [h1, h2]

/-- Claim C10: `Registers::from_core` always produces a register file;
a register whose core read fails is simply absent
(`get_by_dwarf_register_number` returns `None` for it), while every
successfully read register is stored. -/
theorem registersFromCore_spec (core : CoreM) (i : Nat) :
    (Registers.fromCore core).getByDwarfRegisterNumber i =
      (if i < core.numPlatformRegisters then core.readReg i else none) ∧
    (Registers.fromCore core).architecture = core.architecture := by
  constructor
  · exact fromCore_loop_spec core core.numPlatformRegisters i
  · rfl

/-! ## Claim C5 -/

/-- A register-file update changes exactly the targeted slot (also when
the value is removed). -/
theorem setByDwarf_values (r : Registers) (n : Nat) (v : Option Nat)
    (j : Nat) :
    (r.setByDwarfRegisterNumber n v).values j =
      (if j = n then v else r.values j) := by
  cases v <;> simp [Registers.setByDwarfRegisterNumber, regInsert, regRemove]

theorem setByDwarf_arch (r : Registers) (n : Nat) (v : Option Nat) :
    (r.setByDwarfRegisterNumber n v).architecture = r.architecture := by
  cases v <;> simp [Registers.setByDwarfRegisterNumber]

/-- On ARM, writing the canonical frame address writes register 13. -/
theorem setCFA_arm_values (r : Registers)
    (harch : r.architecture = Architecture.arm) (v : Nat) (j : Nat) :
    (r.setCanonicalFrameAddress (some v)).values j =
      (if j = 13 then some v else r.values j) := by
  obtain ⟨vals, arch⟩ := r
  simp only at harch
  subst harch
  simp [Registers.setCanonicalFrameAddress, regInsert]

/-- `ruleExpected` only reads the original file at the slot itself. -/
theorem ruleExpected_congr (env : DebugEnv) (pc cfa : Nat)
    (rules : Nat → RegisterRule) (m m' : Nat → Option Nat) (i : Nat)
    (h : m i = m' i) :
    ruleExpected env pc cfa rules m i = ruleExpected env pc cfa rules m' i := by
  unfold ruleExpected
  cases rules i <;> simp [h]

/-- Loop invariant for the register-rollback loop: on success, slots in
the processed window (register 13 aside) hold their rule's value, all
other slots are untouched, and the architecture is preserved. -/
theorem rollbackLoop_ok_spec (env : DebugEnv) (pc cfa : Nat)
    (rules : Nat → RegisterRule) :
    ∀ remaining i registers newRegisters,
      rollbackLoop env pc cfa rules registers i remaining =
        some (Except.ok newRegisters) →
      (∀ j, j < i ∨ i + remaining ≤ j →
        newRegisters.values j = registers.values j) ∧
      (∀ j, i ≤ j → j < i + remaining → j ≠ 13 →
        newRegisters.values j =
          ruleExpected env pc cfa rules registers.values j) ∧
      newRegisters.architecture = registers.architecture := by
  intro remaining
  induction remaining with
  | zero =>
    intro i registers newRegisters h
    simp only [rollbackLoop] at h
    obtain rfl : registers = newRegisters := by
      injection h with h'
      injection h'
    refine ⟨fun j _ => rfl, fun j h1 h2 _ => by omega, rfl⟩
  | succ remaining ih =>
    intro i registers newRegisters h
    simp only [rollbackLoop] at h
    by_cases hi : i = 13
    · rw [if_pos hi] at h
      obtain ⟨hout, hwin, harch⟩ := ih (i + 1) registers newRegisters h
      refine ⟨fun j hj => hout j (by omega), ?_, harch⟩
      intro j hj1 hj2 hj13
      have : i + 1 ≤ j := by omega
      exact hwin j this (by omega) hj13
    · rw [if_neg hi] at h
      rcases hrule : rules i with _ | _ | o | _ <;> simp only [hrule] at h
      · -- Undefined
        set v : Option Nat :=
          if i = 4 ∨ i = 5 ∨ i = 6 ∨ i = 7 ∨ i = 8 ∨ i = 10 ∨ i = 11 ∨
              i = 14 then
            registers.getByDwarfRegisterNumber i
          else if i = 15 then some (pc % u32Mod) else none with hv
        obtain ⟨hout, hwin, harch⟩ :=
          ih (i + 1) (registers.setByDwarfRegisterNumber i v) newRegisters h
        refine ⟨?_, ?_, ?_⟩
        · intro j hj
          rw [hout j (by omega), setByDwarf_values]
          simp only [if_neg (by omega : ¬ j = i)]
        · intro j hj1 hj2 hj13
          by_cases hji : j = i
          · subst hji
            rw [hout j (by omega), setByDwarf_values, if_pos rfl, hv]
            simp [ruleExpected, hrule, Registers.getByDwarfRegisterNumber]
          · rw [hwin j (by omega) (by omega) hj13]
            apply ruleExpected_congr
            rw [setByDwarf_values]
            simp only [if_neg hji]
        · rw [harch, setByDwarf_arch]
      · -- SameValue
        obtain ⟨hout, hwin, harch⟩ :=
          ih (i + 1)
            (registers.setByDwarfRegisterNumber i
              (registers.getByDwarfRegisterNumber i)) newRegisters h
        refine ⟨?_, ?_, ?_⟩
        · intro j hj
          rw [hout j (by omega), setByDwarf_values]
          simp only [if_neg (by omega : ¬ j = i)]
        · intro j hj1 hj2 hj13
          by_cases hji : j = i
          · subst hji
            rw [hout j (by omega), setByDwarf_values, if_pos rfl]
            simp [ruleExpected, hrule, Registers.getByDwarfRegisterNumber]
          · rw [hwin j (by omega) (by omega) hj13]
            apply ruleExpected_congr
            rw [setByDwarf_values]
            simp only [if_neg hji]
        · rw [harch, setByDwarf_arch]
      · -- Offset(o)
        rcases hread : env.core.readMem (toU32 ((cfa : Int) + o)) 4 with
          _ | buff <;> simp only [hread] at h
        · simp at h
        · obtain ⟨hout, hwin, harch⟩ :=
            ih (i + 1)
              (registers.setByDwarfRegisterNumber i
                (some (u32FromLeBytes buff))) newRegisters h
          refine ⟨?_, ?_, ?_⟩
          · intro j hj
            rw [hout j (by omega), setByDwarf_values]
            simp only [if_neg (by omega : ¬ j = i)]
          · intro j hj1 hj2 hj13
            by_cases hji : j = i
            · subst hji
              rw [hout j (by omega), setByDwarf_values, if_pos rfl]
              simp [ruleExpected, hrule, hread]
            · rw [hwin j (by omega) (by omega) hj13]
              apply ruleExpected_congr
              rw [setByDwarf_values]
              simp only [if_neg hji]
          · rw [harch, setByDwarf_arch]
      · -- other rule: unimplemented!()
        simp at h

/-- Abort invariant for the rollback loop: when no register in the
window has an unimplemented rule and some register's `Offset` read
fails, the loop stops with a read abort. -/
theorem rollbackLoop_abort_spec (env : DebugEnv) (pc cfa : Nat)
    (rules : Nat → RegisterRule) :
    ∀ remaining i registers,
      (∀ j, i ≤ j → j < i + remaining → j ≠ 13 →
        rules j ≠ RegisterRule.otherRule) →
      (∃ j o, i ≤ j ∧ j < i + remaining ∧ j ≠ 13 ∧
        rules j = RegisterRule.offsetRule o ∧
        env.core.readMem (toU32 ((cfa : Int) + o)) 4 = none) →
      ∃ partialRegisters,
        rollbackLoop env pc cfa rules registers i remaining =
          some (Except.error partialRegisters) := by
  intro remaining
  induction remaining with
  | zero =>
    rintro i registers _ ⟨j, o, h1, h2, -⟩
    omega
  | succ remaining ih =>
    rintro i registers hno ⟨j, o, hj1, hj2, hj13, hrulej, hreadj⟩
    simp only [rollbackLoop]
    by_cases hi : i = 13
    · rw [if_pos hi]
      apply ih (i + 1) registers
      · intro k hk1 hk2 hk13
        exact hno k (by omega) (by omega) hk13
      · exact ⟨j, o, by omega, by omega, hj13, hrulej, hreadj⟩
    · rw [if_neg hi]
      rcases hrule : rules i with _ | _ | o' | _ <;> simp only [hrule]
      · have hji : j ≠ i := by
          intro he
          subst he
          rw [hrule] at hrulej
          simp at hrulej
        apply ih
        · intro k hk1 hk2 hk13
          exact hno k (by omega) (by omega) hk13
        · exact ⟨j, o, by omega, by omega, hj13, hrulej, hreadj⟩
      · have hji : j ≠ i := by
          intro he
          subst he
          rw [hrule] at hrulej
          simp at hrulej
        apply ih
        · intro k hk1 hk2 hk13
          exact hno k (by omega) (by omega) hk13
        · exact ⟨j, o, by omega, by omega, hj13, hrulej, hreadj⟩
      · rcases hread' : env.core.readMem (toU32 ((cfa : Int) + o')) 4 with
          _ | buff <;> simp only [hread']
      
        · exact ⟨registers, rfl⟩
        · have hji : j ≠ i := by
            intro he
            subst he
            rw [hrule] at hrulej
            injection hrulej with ho
            subst ho
            rw [hreadj] at hread'
            cases hread'
          apply ih
          · intro k hk1 hk2 hk13
            exact hno k (by omega) (by omega) hk13
          · exact ⟨j, o, by omega, by omega, hj13, hrulej, hreadj⟩
      · exact absurd hrule (hno i (by omega) (by omega) hi)

/-- Claim C5: during the register rollback of a physical frame on ARM,
each DWARF register 0-15 except 13 receives exactly its rule's value —
`Undefined` preserves the callee-saved registers 4, 5, 6, 7, 8, 10, 11
and 14, sets register 15 to the current program counter and clears the
rest; `SameValue` keeps the current value; `Offset(o)` loads 4
little-endian bytes from `CFA + o`; register 13 is skipped, the
computed CFA is written into the register file afterwards, and
registers beyond 15 are untouched.  A failed `Offset` read makes the
rollback abort (assuming no register hits the `unimplemented!()`
rule before it). -/
theorem rollbackRegisters_spec (env : DebugEnv) (pc cfa : Nat)
    (rules : Nat → RegisterRule) (registers : Registers)
    (harch : registers.architecture = Architecture.arm) :
    (∀ newRegisters,
      rollbackRegisters env pc cfa rules registers =
        some (Except.ok newRegisters) →
      newRegisters.getByDwarfRegisterNumber 13 = some cfa ∧
      (∀ i, i < 16 → i ≠ 13 →
        newRegisters.getByDwarfRegisterNumber i =
          ruleExpected env pc cfa rules registers.values i) ∧
      (∀ i, 16 ≤ i →
        newRegisters.getByDwarfRegisterNumber i =
          registers.getByDwarfRegisterNumber i)) ∧
    ((∀ j, j < 16 → j ≠ 13 → rules j ≠ RegisterRule.otherRule) →
      (∃ j o, j < 16 ∧ j ≠ 13 ∧ rules j = RegisterRule.offsetRule o ∧
        env.core.readMem (toU32 ((cfa : Int) + o)) 4 = none) →
      ∃ partialRegisters,
        rollbackRegisters env pc cfa rules registers =
          some (Except.error partialRegisters)) := by
  constructor
  · intro newRegisters h
    unfold rollbackRegisters at h
    rcases hloop : rollbackLoop env pc cfa rules registers 0 16 with
      _ | res
    · rw [hloop] at h
      cases h
    · rw [hloop] at h
      rcases res with partialRegisters | mid
      · cases h
      · obtain rfl : mid.setCanonicalFrameAddress (some cfa) = newRegisters := by
          injection h with h'
          injection h'
        obtain ⟨hout, hwin, harchmid⟩ :=
          rollbackLoop_ok_spec env pc cfa rules 16 0 registers mid hloop
        have harchmid' : mid.architecture = Architecture.arm := by
          rw [harchmid, harch]
        refine ⟨?_, ?_, ?_⟩
        · show (mid.setCanonicalFrameAddress (some cfa)).values 13 = some cfa
          rw [setCFA_arm_values mid harchmid']
          simp
        · intro i hi hi13
          show (mid.setCanonicalFrameAddress (some cfa)).values i = _
          rw [setCFA_arm_values mid harchmid']
          rw [if_neg hi13]
          exact hwin i (by omega) (by omega) hi13
        · intro i hi
          show (mid.setCanonicalFrameAddress (some cfa)).values i =
            registers.values i
          rw [setCFA_arm_values mid harchmid']
          rw [if_neg (by omega : ¬ i = 13)]
          exact hout i (by omega)
  · intro hno hex
    obtain ⟨j, o, hj, hj13, hrulej, hreadj⟩ := hex
    obtain ⟨partialRegisters, hloop⟩ :=
      rollbackLoop_abort_spec env pc cfa rules 16 0 registers
        (fun k _ hk2 hk13 => hno k (by omega) hk13)
        ⟨j, o, by omega, by omega, hj13, hrulej, hreadj⟩
    refine ⟨partialRegisters, ?_⟩
    unfold rollbackRegisters
    rw [hloop]

/-- Witness for C5: the rollback characterization at a concrete rule
set, register file and memory. -/
theorem rollbackRegisters_spec_witness :
    (∀ newRegisters,
      rollbackRegisters envC5 4096 220 rulesC5 regsC5 =
        some (Except.ok newRegisters) →
      newRegisters.getByDwarfRegisterNumber 13 = some 220 ∧
      (∀ i, i < 16 → i ≠ 13 →
        newRegisters.getByDwarfRegisterNumber i =
          ruleExpected envC5 4096 220 rulesC5 regsC5.values i) ∧
      (∀ i, 16 ≤ i →
        newRegisters.getByDwarfRegisterNumber i =
          regsC5.getByDwarfRegisterNumber i)) ∧
    ((∀ j, j < 16 → j ≠ 13 → rulesC5 j ≠ RegisterRule.otherRule) →
      (∃ j o, j < 16 ∧ j ≠ 13 ∧ rulesC5 j = RegisterRule.offsetRule o ∧
        envC5.core.readMem (toU32 ((220 : Nat) + o)) 4 = none) →
      ∃ partialRegisters,
        rollbackRegisters envC5 4096 220 rulesC5 regsC5 =
          some (Except.error partialRegisters)) :=
  rollbackRegisters_spec envC5 4096 220 rulesC5 regsC5 rfl

/-! ## Claim C9 -/

/-- When no entry of the DFS is a subprogram covering the address, the
function-DIE scan finds nothing. -/
theorem searchFunctionDie_none (u : UnitM) (address : Nat)
    (findInlined : Bool) :
    ∀ entries : List (Nat × Die),
      (∀ p ∈ entries, p.2.tag = DwTag.subprogram →
        rangesCover p.2.ranges address = false) →
      searchFunctionDie u address findInlined entries = none := by
  intro entries
  induction entries with
  | nil => intro _; rfl
  | cons p rest ih =>
    intro h
    obtain ⟨d0, d⟩ := p
    simp only [searchFunctionDie]
    rw [if_neg]
    · exact ih (fun q hq => h q (List.mem_cons_of_mem _ hq))
    · rintro ⟨htag, hcover⟩
      have hfalse := h (d0, d) (List.mem_cons_self _ _) htag
      rw [hfalse] at hcover
      simp at hcover

/-- Under the same premise, `get_function_die` returns `None`. -/
theorem getFunctionDie_none (u : UnitM) (address : Nat)
    (findInlined : Bool)
    (h : ∀ p ∈ flattenDepth 0 u.root, p.2.tag = DwTag.subprogram →
      rangesCover p.2.ranges address = false) :
    getFunctionDie u address findInlined = none :=
  searchFunctionDie_none u address findInlined _ h

/-- The unit loop of `get_stackframe_info` falls through to the
unknown-function frame when every unit's DIE lookup fails. -/
theorem stackframeUnitsLoop_unknown (fuel : Nat) (env : DebugEnv)
    (address frameCount : Nat) (registers : Registers)
    (inlinedFunction : Bool) (unknownFunction : String) :
    ∀ us : List UnitM,
      (∀ u ∈ us, getFunctionDie u address inlinedFunction = none) →
      stackframeUnitsLoop fuel env address frameCount registers
          inlinedFunction unknownFunction us =
        (match getSourceLocation env address with
          | none => none
          | some sourceLocation =>
            some (Except.ok
              { id := frameCount
                functionName := unknownFunction
                sourceLocation := sourceLocation
                registers := registers
                pc := address % u32Mod
                frameVariables := [] })) := by
  intro us
  induction us with
  | nil => intro _; rfl
  | cons u rest ih =>
    intro h
    simp only [stackframeUnitsLoop]
    rw [h u (List.mem_cons_self _ _)]
    exact ih (fun v hv => h v (List.mem_cons_of_mem _ hv))

/-- Claim C9: when no compilation unit has a subprogram DIE whose
ranges cover the requested address, `get_stackframe_info` still
returns `Ok` with the `<unknown function @ address>` name, an empty
variable list, and the running frame count as the id (provided the
source-location lookup itself has a defined result). -/
theorem getStackframeInfo_unknown (fuel : Nat) (env : DebugEnv)
    (address frameCount : Nat) (registers : Registers)
    (inlinedFunction : Bool) (sl : Option SourceLocation)
    (hnodie : ∀ u ∈ env.units, ∀ p ∈ flattenDepth 0 u.root,
      p.2.tag = DwTag.subprogram → rangesCover p.2.ranges address = false)
    (hsl : getSourceLocation env address = some sl) :
    getStackframeInfo fuel env address frameCount registers
        inlinedFunction =
      some (Except.ok
        { id := frameCount
          functionName := "<unknown function @ " ++ hexFmt010 address ++ ">"
          sourceLocation := sl
          registers := registers
          pc := address % u32Mod
          frameVariables := [] }) := by
  unfold getStackframeInfo
  rw [stackframeUnitsLoop_unknown fuel env address frameCount registers
    inlinedFunction _ env.units
    (fun u hu => getFunctionDie_none u address inlinedFunction
      (hnodie u hu))]
  rw [hsl]

/-- Witness for C9: an environment with no units at all, at the
address of scenario S1; the formatted name is checked concretely. -/
theorem getStackframeInfo_unknown_witness :
    getStackframeInfo 5 envC5 134221860 7 regsC5 false =
      some (Except.ok
        { id := 7
          functionName :=
            "<unknown function @ " ++ hexFmt010 134221860 ++ ">"
          sourceLocation := none
          registers := regsC5
          pc := 134221860 % u32Mod
          frameVariables := [] }) ∧
    "<unknown function @ " ++ hexFmt010 134221860 ++ ">" =
      "<unknown function @ 0x08001024>" :=
  ⟨getStackframeInfo_unknown 5 envC5 134221860 7 regsC5 false none
    (fun u hu => absurd hu (by simp [envC5]))
    rfl,
   by decide⟩

/-! ## Claim C1 -/

/-- Claim C1 counterexample: at scenario S1's innermost frame the CFA
computed from the frame's own CFI rule is `r13 + 16 = 536871184`, but
the physical frame the step produces carries `id = 536871168`, the
value register 13 held when the step began — the two differ. -/
theorem stackFrameNext_id_ne_cfa_counterexample :
    (stackFrameNext 20 envC1 s0C1).map
        (fun r => r.1.map (fun f => (f.id, f.pc))) =
      some (some (536871168, 4132)) ∧
    envC1.unwindInfoAt 4132 = some uwC1 ∧
    computeCfa s0C1.registers uwC1 = some (some 536871184) ∧
    inlineDetection envC1 s0C1.inliningState 4132 =
      some (false, InlineFunctionState.noInlining, none) ∧
    (536871168 : Nat) ≠ 536871184 :=
  ⟨by decide, rfl, by decide, rfl, by decide⟩

/-- The unit loop of `get_stackframe_info`, characterized on success:
the frame's `pc` is the truncated address; its `id` is the incoming
canonical-frame-address register value when some unit resolves a
function DIE, and the running frame count when none does. -/
theorem stackframeUnitsLoop_id_pc (fuel : Nat) (env : DebugEnv)
    (address frameCount : Nat) (registers : Registers)
    (inlinedFunction : Bool) (unknownFunction : String) :
    ∀ (us : List UnitM) (frame : StackFrame),
      stackframeUnitsLoop fuel env address frameCount registers
          inlinedFunction unknownFunction us = some (Except.ok frame) →
      frame.pc = address % u32Mod ∧
      ((∃ u ∈ us, (getFunctionDie u address inlinedFunction).isSome) →
        frame.id = (registers.getCanonicalFrameAddress).getD 0) ∧
      ((∀ u ∈ us, getFunctionDie u address inlinedFunction = none) →
        frame.id = frameCount) := by
  intro us
  induction us with
  | nil =>
    intro frame h
    simp only [stackframeUnitsLoop] at h
    rcases hsl : getSourceLocation env address with _ | sl <;>
      simp only [hsl] at h
    · cases h
    · obtain rfl : _ = frame := by
        injection h with h'
        injection h'
      refine ⟨rfl, ?_, fun _ => rfl⟩
      rintro ⟨u, hu, -⟩
      simp at hu
  | cons u rest ih =>
    intro frame h
    simp only [stackframeUnitsLoop] at h
    rcases hdie : getFunctionDie u address inlinedFunction with _ | die <;>
      simp only [hdie] at h
    · obtain ⟨hpc, hex, hall⟩ := ih frame h
      refine ⟨hpc, ?_, ?_⟩
      · rintro ⟨v, hv, hsome⟩
        rcases List.mem_cons.mp hv with rfl | hv'
        · rw [hdie] at hsome
          cases hsome
        · exact hex ⟨v, hv', hsome⟩
      · intro hnone
        exact hall (fun v hv => hnone v (List.mem_cons_of_mem _ hv))
    · rcases hv : getFunctionVariables fuel env u die
          ((registers.getCanonicalFrameAddress).getD 0)
          ((registers.getReturnAddress).getD 0) with _ | er <;>
        simp only [hv] at h
      · cases h
      · rcases er with e | vars
        · cases h
        · rcases hsl : getSourceLocation env address with _ | sl <;>
            simp only [hsl] at h
          · cases h
          · obtain rfl : _ = frame := by
              injection h with h'
              injection h'
            refine ⟨rfl, fun _ => rfl, ?_⟩
            intro hnone
            have := hnone u (List.mem_cons_self _ _)
            rw [hdie] at this
            cases this

/-- `patchCallSite` only touches the source location. -/
theorem patchCallSite_id_pc (frame : StackFrame)
    (info : Option InlineFunctionState) :
    (patchCallSite frame info).id = frame.id ∧
    (patchCallSite frame info).pc = frame.pc := by
  unfold patchCallSite
  rcases info with _ | st
  · exact ⟨rfl, rfl⟩
  · rcases st with ⟨a, b, c, d⟩ | _ <;> exact ⟨rfl, rfl⟩

/-- Dissection of a physical (non-inlined) step of
`StackFrameIterator::next` that yields a frame: the unwind row, CFA,
constructed frame, rolled-back registers and advanced program counter
it goes through. -/
theorem stackFrameNext_physical_frame (fuel : Nat) (env : DebugEnv)
    (s : IterState) (pc : Nat)
    (det : Bool × InlineFunctionState × Option InlineFunctionState)
    (frame : StackFrame) (s' : IterState)
    (hpc : s.pc = some pc)
    (hdet : inlineDetection env s.inliningState pc = some det)
    (hphys : det.1 = false)
    (hstep : stackFrameNext fuel env s = some (some frame, s')) :
    ∃ uw cfa frame0 newRegisters,
      env.unwindInfoAt pc = some uw ∧
      computeCfa s.registers uw = some (some cfa) ∧
      getStackframeInfo fuel env pc s.frameCount s.registers false =
        some (Except.ok frame0) ∧
      frame = patchCallSite frame0 det.2.2 ∧
      rollbackRegisters env pc cfa uw.regRule s.registers =
        some (Except.ok newRegisters) ∧
      s'.registers = newRegisters ∧
      s'.frameCount = s.frameCount + 1 ∧
      s'.pc = (match (newRegisters.getProgramCounter).map clearBit0 with
        | some np => if np = pc then none else some np
        | none => none) := by
  obtain ⟨b, st, ci⟩ := det
  simp only at hphys
  subst hphys
  unfold stackFrameNext at hstep
  rw [hpc] at hstep
  simp only [hdet] at hstep
  rcases huw : env.unwindInfoAt pc with _ | uw <;> simp only [huw] at hstep
  · simp at hstep
  · rcases hcfa : computeCfa s.registers uw with _ | ocfa <;>
      simp only [hcfa] at hstep
    · cases hstep
    · rcases ocfa with _ | cfa
      · simp at hstep
      · rcases hsfi : getStackframeInfo fuel env pc s.frameCount
            s.registers false with _ | frameRes <;>
          simp only [hsfi] at hstep
        · cases hstep
        · rcases frameRes with e | frame0 <;>
            rcases hrb : rollbackRegisters env pc cfa uw.regRule
              s.registers with _ | rb <;>
            simp only [hrb] at hstep
          · simp at hstep
          · rcases rb with partialRegisters | newRegisters <;> simp at hstep
          · simp at hstep
          · rcases rb with partialRegisters | newRegisters
            · simp at hstep
            · simp at hstep
              obtain ⟨h1, h2⟩ := hstep
              subst h2
              exact ⟨uw, cfa, frame0, newRegisters, rfl, hcfa, rfl,
                h1.symm, hrb, rfl, rfl, rfl⟩

  

/-- Claim C1 (amended): a physical frame produced by `next` carries a
`pc` equal to the unwind program counter truncated to 32 bits, and an
`id` equal to the canonical-frame-address register's value at the
start of the step (0 when absent) when some unit resolves a function
DIE at that counter — that is the *previous* step's CFA, not the CFA
computed from this frame's own CFI rule — and the running frame count
when none does. -/
theorem stackFrameNext_physical_id_pc (fuel : Nat) (env : DebugEnv)
    (s : IterState) (pc : Nat)
    (det : Bool × InlineFunctionState × Option InlineFunctionState)
    (frame : StackFrame) (s' : IterState)
    (hpc : s.pc = some pc)
    (hdet : inlineDetection env s.inliningState pc = some det)
    (hphys : det.1 = false)
    (hstep : stackFrameNext fuel env s = some (some frame, s')) :
    frame.pc = pc % u32Mod ∧
    ((∃ u ∈ env.units, (getFunctionDie u pc false).isSome) →
      frame.id = (s.registers.getCanonicalFrameAddress).getD 0) ∧
    ((∀ u ∈ env.units, getFunctionDie u pc false = none) →
      frame.id = s.frameCount) := by
  obtain ⟨uw, cfa, frame0, newRegisters, huw, hcfa, hsfi, hframe, hrb,
    hregs, hcount, hadv⟩ :=
    stackFrameNext_physical_frame fuel env s pc det frame s' hpc hdet
      hphys hstep
  have hsfi' : stackframeUnitsLoop fuel env pc s.frameCount s.registers
      false ("<unknown function @ " ++ hexFmt010 pc ++ ">") env.units =
      some (Except.ok frame0) := hsfi
  obtain ⟨hpc0, hex, hall⟩ :=
    stackframeUnitsLoop_id_pc fuel env pc s.frameCount s.registers false
      _ env.units frame0 hsfi'
  obtain ⟨hid', hpc'⟩ := patchCallSite_id_pc frame0 det.2.2
  rw [hframe]
  exact ⟨by rw [hpc']; exact hpc0,
    fun h => by rw [hid']; exact hex h,
    fun h => by rw [hid']; exact hall h⟩

/-- Witness for the amended C1 at scenario S1's environment. -/
theorem stackFrameNext_physical_id_pc_witness :
    frameC1.pc = 4132 % u32Mod ∧
    ((∃ u ∈ envC1.units, (getFunctionDie u 4132 false).isSome) →
      frameC1.id = (s0C1.registers.getCanonicalFrameAddress).getD 0) ∧
    ((∀ u ∈ envC1.units, getFunctionDie u 4132 false = none) →
      frameC1.id = s0C1.frameCount) :=
  stackFrameNext_physical_id_pc 20 envC1 s0C1 4132
    (false, InlineFunctionState.noInlining, none) frameC1 sC1'
    rfl rfl rfl (by rfl)

/-! ## Claim C4 -/

/-- Claim C4 counterexample: starting the unwinder at the 64-bit
address `2^32 + 4132` with rules that keep every register, the first
physical frame has `pc` field 4132 (the `u32` truncation), the next
unwind counter is 4132, and the second physical frame has the same
`pc` field 4132 — two consecutive physical frames sharing their `pc`
(the loop guard compares the untruncated 64-bit counters, which do
differ). -/
theorem stackFrameNext_shared_pc_counterexample :
    (stackFrameNext 20 envC4 s0C4).map
        (fun r => r.1.map StackFrame.pc) = some (some 4132) ∧
    (stackFrameNext 20 envC4 s0C4).map (fun r => r.2.pc) =
      some (some 4132) ∧
    ((stackFrameNext 20 envC4 s0C4).bind
        (fun r => stackFrameNext 20 envC4 r.2)).map
        (fun r => r.1.map StackFrame.pc) = some (some 4132) ∧
    inlineDetection envC4 s0C4.inliningState 4294971428 =
      some (false, InlineFunctionState.noInlining, none) ∧
    inlineDetection envC4 InlineFunctionState.noInlining 4132 =
      some (false, InlineFunctionState.noInlining, none) :=
  ⟨by decide, by decide, by decide, rfl, rfl⟩

theorem setCFA_arch (r : Registers) (v : Option Nat) :
    (r.setCanonicalFrameAddress v).architecture = r.architecture := by
  obtain ⟨vals, arch⟩ := r
  cases arch <;> cases v <;> rfl

/-- The rollback preserves the architecture tag. -/
theorem rollbackRegisters_arch (env : DebugEnv) (pc cfa : Nat)
    (rules : Nat → RegisterRule) (registers newRegisters : Registers)
    (h : rollbackRegisters env pc cfa rules registers =
      some (Except.ok newRegisters)) :
    newRegisters.architecture = registers.architecture := by
  unfold rollbackRegisters at h
  rcases hloop : rollbackLoop env pc cfa rules registers 0 16 with _ | res <;>
    rw [hloop] at h
  · cases h
  · rcases res with p | mid
    · cases h
    · obtain rfl : mid.setCanonicalFrameAddress (some cfa) = newRegisters := by
        injection h with h'
        injection h'
      rw [setCFA_arch]
      exact (rollbackLoop_ok_spec env pc cfa rules 16 0 registers mid
        hloop).2.2

/-- Claim C4 (amended): an unknown program counter ends the iteration;
after a physical frame is produced, the next program counter is the
value of ARM's return-address register (DWARF register 14, read by
`get_program_counter`) with bit 0 cleared, the iteration ends when that
value equals the previous 64-bit counter, and any successor counter
differs from the previous one as a 64-bit value (the 32-bit `pc`
fields may still coincide when the counter exceeds 32 bits). -/
theorem stackFrameNext_pc_advance :
    (∀ (fuel : Nat) (env : DebugEnv) (s : IterState), s.pc = none →
      stackFrameNext fuel env s = some (none, s)) ∧
    (∀ (fuel : Nat) (env : DebugEnv) (s : IterState) (pc : Nat)
      (det : Bool × InlineFunctionState × Option InlineFunctionState)
      (frame : StackFrame) (s' : IterState),
      s.pc = some pc →
      inlineDetection env s.inliningState pc = some det →
      det.1 = false →
      stackFrameNext fuel env s = some (some frame, s') →
      ((s'.registers.getProgramCounter = none → s'.pc = none) ∧
       (∀ v, s'.registers.getProgramCounter = some v →
         (clearBit0 v = pc → s'.pc = none) ∧
         (clearBit0 v ≠ pc → s'.pc = some (clearBit0 v))) ∧
       (∀ p', s'.pc = some p' → p' ≠ pc) ∧
       (s.registers.architecture = Architecture.arm →
         s'.registers.getProgramCounter =
           s'.registers.getByDwarfRegisterNumber 14))) := by
  constructor
  · intro fuel env s h
    unfold stackFrameNext
    rw [h]
  · intro fuel env s pc det frame s' hpc hdet hphys hstep
    obtain ⟨uw, cfa, frame0, newRegisters, huw, hcfa, hsfi, hframe, hrb,
      hregs, hcount, hadv⟩ :=
      stackFrameNext_physical_frame fuel env s pc det frame s' hpc hdet
        hphys hstep
    have harch' : s'.registers.architecture = s.registers.architecture := by
      rw [hregs]
      exact rollbackRegisters_arch env pc cfa uw.regRule s.registers
        newRegisters hrb
    rw [← hregs] at hadv
    refine ⟨?_, ?_, ?_, ?_⟩
    · intro hgp
      rw [hadv, hgp]
      rfl
    · intro v hgp
      constructor
      · intro heq
        rw [hadv, hgp]
        simp [heq]
      · intro hne
        rw [hadv, hgp]
        simp [hne]
    · intro p' hp'
      rw [hadv] at hp'
      rcases hgp : s'.registers.getProgramCounter with _ | v <;>
        rw [hgp] at hp'
      · cases hp'
      · simp only [Option.map_some'] at hp'
        by_cases heq : clearBit0 v = pc
        · rw [if_pos heq] at hp'
          cases hp'
        · rw [if_neg heq] at hp'
          injection hp' with h
          rw [← h]
          exact heq
    · intro harm
      unfold Registers.getProgramCounter Registers.getByDwarfRegisterNumber
      rw [harch', harm]

/-- Witness for the amended C4: the none-counter case and a physical
step on the C1 environment. -/
theorem stackFrameNext_pc_advance_witness :
    stackFrameNext 5 envC1
        { frameCount := 0, pc := none, registers := regsC1,
          inliningState := InlineFunctionState.noInlining } =
      some (none,
        { frameCount := 0, pc := none, registers := regsC1,
          inliningState := InlineFunctionState.noInlining }) ∧
    ((sC1'.registers.getProgramCounter = none → sC1'.pc = none) ∧
     (∀ v, sC1'.registers.getProgramCounter = some v →
       (clearBit0 v = 4132 → sC1'.pc = none) ∧
       (clearBit0 v ≠ 4132 → sC1'.pc = some (clearBit0 v))) ∧
     (∀ p', sC1'.pc = some p' → p' ≠ 4132) ∧
     (s0C1.registers.architecture = Architecture.arm →
       sC1'.registers.getProgramCounter =
         sC1'.registers.getByDwarfRegisterNumber 14)) :=
  ⟨stackFrameNext_pc_advance.1 5 envC1 _ rfl,
   stackFrameNext_pc_advance.2 20 envC1 s0C1 4132
     (false, InlineFunctionState.noInlining, none) frameC1 sC1'
     rfl rfl rfl (by rfl)⟩

/-- Claim C3 counterexample: resolving a single pointer variable whose
target-memory read fails makes `process_tree` return an error for the
whole tree — the failure is not recorded as the variable's value. -/
theorem processTree_error_counterexample :
    processTree 20 envC3 unitC3 rootC3 Variable.new 0 0 =
      some (Except.error DebugError.probe) := rfl

/-- Claim C3 (amended): `extract_location` records every per-variable
location failure inline and never returns an error (first conjunct;
when the location expression's evaluation fails, the error text becomes
the variable's value string — second conjunct), but a failed
target-memory read while resolving a pointer type propagates out of
`extract_type` as a whole-tree error (third conjunct). -/
theorem variableResolver_error_policy :
    (∀ (core : CoreM) (node : Die) (parent child : Variable)
      (frameBase : Nat) (e : DebugError),
      extractLocation core node parent child frameBase ≠
        some (Except.error e)) ∧
    (∀ (core : CoreM) (parent child : Variable) (frameBase : Nat)
      (expression : ExprM) (e : DebugError),
      exprToPiece core expression frameBase = some (Except.error e) →
      extractLocationValue core parent frameBase child
          (AttrVal.exprloc expression) =
        some (((child.setValue ("ERROR: expr_to_piece() failed with: " ++
            e.render)).withData
          { (child.setValue ("ERROR: expr_to_piece() failed with: " ++
              e.render)).data with memoryLocation := u64Max }).setValue
          "ERROR: expr_to_piece() returned 0 results: []")) ∧
    (∀ (fuel : Nat) (env : DebugEnv) (u : UnitM) (node : Die)
      (parent child : Variable) (frameBase programCounter : Nat)
      (unitRef : Nat) (referencedNode : Die),
      node.tag = DwTag.pointerType →
      node.attrGet DwAt.typeAttr = some (AttrVal.unitRef unitRef) →
      u.dieAt unitRef = some referencedNode →
      env.core.readMem (child.memoryLocation % u32Mod) 4 = none →
      extractType (fuel + 1) env u node parent child frameBase
        programCounter = some (Except.error DebugError.probe)) := by
  refine ⟨?_, ?_, ?_⟩
  · intro core node parent child frameBase e
    unfold extractLocation
    rcases extractLocationAttrs core parent frameBase node.attrs child with
      _ | c <;> simp
  · intro core parent child frameBase expression e h
    simp only [extractLocationValue, h]
  · intro fuel env u node parent child frameBase programCounter unitRef
      referencedNode htag hattr hdie hread
    obtain ⟨cd, cc⟩ := child
    simp only [Variable.memoryLocation, Variable.data] at hread
    simp only [extractType, htag, hattr, hdie, Variable.withData,
      Variable.data, Variable.memoryLocation]
    rw [hread]

/-- Witness for the amended C3, at the concrete failing-pointer
environment (and a concrete failing location expression). -/
theorem variableResolver_error_policy_witness :
    (extractLocation coreFail rootC3 Variable.new Variable.new 0 ≠
      some (Except.error DebugError.probe)) ∧
    (extractLocationValue coreFail Variable.new 0 Variable.new
        (AttrVal.exprloc
          { requests := [EvalRequest.requiresMemory 64 4], pieces := [] }) =
      some (((Variable.new.setValue
          ("ERROR: expr_to_piece() failed with: " ++
            (DebugError.other
              "Unexpected error while reading debug expressions from target memory. Please report this as a bug.").render)).withData
        { (Variable.new.setValue
            ("ERROR: expr_to_piece() failed with: " ++
              (DebugError.other
                "Unexpected error while reading debug expressions from target memory. Please report this as a bug.").render)).data
          with memoryLocation := u64Max }).setValue
        "ERROR: expr_to_piece() returned 0 results: []")) ∧
    (extractType 20 envC3 unitC3 ptrTypeDieC3 Variable.new Variable.new 0 0 =
      some (Except.error DebugError.probe)) :=
  ⟨variableResolver_error_policy.1 coreFail rootC3 Variable.new Variable.new
      0 DebugError.probe,
   variableResolver_error_policy.2.1 coreFail Variable.new Variable.new 0
      { requests := [EvalRequest.requiresMemory 64 4], pieces := [] }
      (DebugError.other
        "Unexpected error while reading debug expressions from target memory. Please report this as a bug.")
      rfl,
   variableResolver_error_policy.2.2 19 envC3 unitC3 ptrTypeDieC3
      Variable.new Variable.new 0 0 20 pointeeDieC3 rfl (by rfl) (by rfl)
      rfl⟩

/-- Claim C6 counterexample: with member index 2^32 and element byte
size 2^32 the `u64` product `index * byte_size` wraps to 0, so the
member's location computes to the wrapped address 1 and `extract_type`
reports no error, although the true location `1 + 2^32 * 2^32` is far
beyond 64 bits. -/
theorem extractType_overflow_counterexample :
    ((extractType 5 envC3 unitC3 bigBaseDieC6 Variable.new bigMemberVarC6
        0 0).map (fun res => match res with
          | Except.ok v => some v.memoryLocation
          | Except.error _ => none)) = some (some 1) ∧
    (1 + 4294967296 * 4294967296) % u64Mod = 1 ∧
    u64Mod ≤ 1 + 4294967296 * 4294967296 := by
  refine ⟨rfl, by decide, by decide⟩

theorem toU64_ofNat (n : Nat) (h : n < u64Mod) : toU64 (n : Int) = n := by
  unfold toU64 u64Mod at *
  rw [show ((18446744073709551616 : Nat) : Int) = (18446744073709551616 : Int) from by norm_cast]
  change ((n : Int) % 18446744073709551616).toNat = n
  omega

theorem toI64_ofNat (n : Nat) (h : n < 9223372036854775808) :
    toI64 n = (n : Int) := by
  unfold toI64
  rw [if_pos h]

/-- `extract_value` never changes anything but the value string. -/
theorem extractValue_projections (v : Variable) (core : CoreM) :
    (v.extractValue core).name = v.name ∧
    (v.extractValue core).memoryLocation = v.memoryLocation ∧
    (v.extractValue core).kind = v.kind ∧
    (v.extractValue core).memberIndex = v.memberIndex := by
  unfold Variable.extractValue
  split
  · rcases core.readMem (v.memoryLocation % u32Mod) v.byteSize with _ | bs
    · exact ⟨rfl, rfl, rfl, rfl⟩
    · exact ⟨rfl, rfl, rfl, rfl⟩
  · exact ⟨rfl, rfl, rfl, rfl⟩

theorem ptna_elem (f : Nat) (env : DebugEnv) (u : UnitM) (eoff s : Nat)
    (en : String) (erngs : List (Nat × Nat)) (parent : Variable)
    (fb pc : Nat) (hmem : parent.memberIndex = none) :
    ptna (f + 4) env u (elemDieOf eoff en s erngs) parent Variable.new fb
      pc = some (Except.ok (parent, elemFreshMember en
        parent.memoryLocation)) := by
  obtain ⟨⟨n, tn, vl, k, inc, ml, bs, fi, li, mi, rl, ru, ro⟩, cc⟩ := parent
  simp only [Variable.memberIndex, Variable.data] at hmem
  subst hmem
  rfl

theorem extractType_elemFields (f : Nat) (env : DebugEnv) (u : UnitM)
    (eoff s : Nat) (en : String) (erngs : List (Nat × Nat))
    (parentV : Variable) (fb pc idx : Nat) (d : VarData)
    (cc : Option (List Variable))
    (hmi : d.memberIndex = some (idx : Int))
    (hidx : idx < u64Mod)
    (hfit : d.memoryLocation + idx * s < u64Mod) :
    extractType (f + 4) env u (elemDieOf eoff en s erngs) parentV
      (Variable.mk d cc) fb pc =
      some (Except.ok (elemTyped en s d (d.memoryLocation + idx * s))) := by
  obtain ⟨n, tn, vl, k, inc, ml, bs, fi, li, mi, rl, ru, ro⟩ := d
  simp only [VarData.memberIndex] at hmi
  simp only [VarData.memoryLocation] at hfit
  subst hmi
  obtain ⟨f3, hf⟩ : ∃ f3, f + 4 = f3 + 1 := ⟨f + 3, rfl⟩
  rw [hf]
  have hred : extractType (f3 + 1) env u (elemDieOf eoff en s erngs)
      parentV (Variable.mk
        ⟨n, tn, vl, k, inc, ml, bs, fi, li, some (idx : Int), rl, ru, ro⟩
        cc) fb pc =
      (if u64Mod ≤ ml + (toU64 (idx : Int) * s) % u64Mod then
        some (Except.error (DebugError.other
          "Overflow calculating variable address"))
      else
        some (Except.ok (Variable.mk
          ⟨n, en, vl, k, inc, ml + (toU64 (idx : Int) * s) % u64Mod, s, fi,
            li, some (idx : Int), rl, ru, ro⟩ none))) := rfl
  rw [hred, toU64_ofNat idx hidx, Nat.mod_eq_of_lt (by omega),
    if_neg (by omega)]
  rfl

theorem processTree_subrange (f : Nat) (env : DebugEnv) (u : UnitM)
    (off soff r lo hi : Nat) (arngs srngs : List (Nat × Nat))
    (fb pc : Nat) :
    processTree (f + 7) env u (arrDieOf off soff r lo hi arngs srngs)
      Variable.new fb pc = some (Except.ok (subVarResult lo hi)) := rfl

theorem arrayMembers_step (g : Nat) (env : DebugEnv) (u : UnitM)
    (eoff s r : Nat) (en : String) (erngs : List (Nat × Nat)) (up : Int)
    (fb pc idx : Nat) (d : VarData) (cc : Option (List Variable))
    (count : Nat)
    (hdie : u.dieAt r = some (elemDieOf eoff en s erngs))
    (hmem : d.memberIndex = none)
    (hidx : idx < u64Mod)
    (hfit : d.memoryLocation + idx * s < u64Mod) :
    arrayMembers (g + 4 + 1) env u r up (idx : Int) (count + 1)
      (Variable.mk d cc) fb pc =
    arrayMembers (g + 4) env u r up ((idx : Int) + 1) count
      (stepChild env d cc up en s idx) fb pc := by
  simp only [arrayMembers, hdie]
  rw [ptna_elem g env u eoff s en erngs (Variable.mk d cc) fb pc hmem]
  simp only [obindE, elemFreshMember, Variable.withData, Variable.data,
    Variable.children, Variable.name, Variable.memoryLocation,
    Variable.file, Variable.line]
  rw [extractType_elemFields g env u eoff s en erngs _ fb pc idx
    ⟨"__" ++ toString (idx : Int), "", "", VariableKind.indexed,
      VariableInclusion.unknownV, d.memoryLocation, 0, d.file, d.line,
      some (idx : Int), 0, 0, VariantRole.nonVariant⟩ none rfl hidx hfit]
  simp only [obindE, elemTyped, Variable.withData, Variable.data,
    Variable.children, Variable.addChildVariable, Variable.withChildren,
    stepChild, arrayElemVar]

theorem range'_cons (s n : Nat) :
    List.range' s (n + 1) = s :: List.range' (s + 1) n := rfl

theorem arrayMembers_loop_spec (env : DebugEnv) (u : UnitM)
    (eoff s r : Nat) (en : String) (erngs : List (Nat × Nat)) (up : Int)
    (fb pc : Nat)
    (hdie : u.dieAt r = some (elemDieOf eoff en s erngs)) :
    ∀ (count : Nat), ∀ (f idx : Nat), ∀ (child : Variable),
      count + 5 ≤ f →
      child.memberIndex = none →
      idx + count < 9223372036854775808 →
      child.memoryLocation + (idx + count) * s < u64Mod →
      ∃ child',
        arrayMembers f env u r up (idx : Int) count child fb pc =
          some (Except.ok child') ∧
        child'.typeName = (if count = 0 then child.typeName else
          "[" ++ en ++ ";" ++ toString up ++ "]") ∧
        child'.memoryLocation = child.memoryLocation ∧
        child'.memberIndex = child.memberIndex ∧
        ((child'.children).getD []).map Variable.name =
          ((child.children).getD []).map Variable.name ++
          (List.range' idx count).map
            (fun (i : Nat) => "__" ++ toString (i : Int)) ∧
        ((child'.children).getD []).map Variable.memoryLocation =
          ((child.children).getD []).map Variable.memoryLocation ++
          (List.range' idx count).map
            (fun i => child.memoryLocation + i * s) ∧
        ((child'.children).getD []).map Variable.kind =
          ((child.children).getD []).map Variable.kind ++
          List.replicate count VariableKind.indexed ∧
        ((child'.children).getD []).map Variable.memberIndex =
          ((child.children).getD []).map Variable.memberIndex ++
          (List.range' idx count).map
            (fun (i : Nat) => (some (i : Int) : Option Int)) := by
  intro count
  induction count with
  | zero =>
    intro f idx child hf hmem hbound hloc
    obtain ⟨f1, rfl⟩ : ∃ f1, f = f1 + 1 := ⟨f - 1, by omega⟩
    refine ⟨child, rfl, by simp, rfl, rfl, by simp, by simp, by simp,
      by simp⟩
  | succ count ih =>
    intro f idx child hf hmem hbound hloc
    obtain ⟨g, rfl⟩ : ∃ g, f = g + 4 + 1 := ⟨f - 5, by omega⟩
    obtain ⟨d, cc⟩ := child
    replace hmem : d.memberIndex = none := hmem
    replace hloc : d.memoryLocation + (idx + (count + 1)) * s < u64Mod :=
      hloc
    have hidx : idx < u64Mod := by unfold u64Mod; omega
    have hfit : d.memoryLocation + idx * s < u64Mod := by
      have h1 : idx * s ≤ (idx + (count + 1)) * s :=
        Nat.mul_le_mul_right s (by omega)
      omega
    rw [arrayMembers_step g env u eoff s r en erngs up fb pc idx d cc
      count hdie hmem hidx hfit]
    obtain ⟨child', hEq, hTy, hLoc, hMi, hN, hL, hK, hM⟩ :=
      ih (g + 4) (idx + 1) (stepChild env d cc up en s idx) (by omega)
        hmem (by omega)
        (by
          have h : idx + 1 + count = idx + (count + 1) := by omega
          show d.memoryLocation + (idx + 1 + count) * s < u64Mod
          rw [h]; exact hloc)
    push_cast at hEq
    refine ⟨child', hEq, ?_, ?_, ?_, ?_, ?_, ?_, ?_⟩
    · rw [if_neg (Nat.succ_ne_zero count)]
      rw [hTy]
      split <;> rfl
    · exact hLoc
    · exact hMi
    · rw [hN, range'_cons]
      have hname : ((arrayElemVar d en s idx).extractValue
          env.core).name = "__" ++ toString (idx : Int) := by
        rw [(extractValue_projections _ _).1]; rfl
      simp only [stepChild, Variable.children, Option.getD, List.map_append,
        List.map_cons, List.map_nil, hname, List.append_assoc,
        List.singleton_append, List.nil_append]
    · rw [hL, range'_cons]
      have hloc2 : ((arrayElemVar d en s idx).extractValue
          env.core).memoryLocation = d.memoryLocation + idx * s := by
        rw [(extractValue_projections _ _).2.1]; rfl
      simp only [stepChild, Variable.children, Option.getD, List.map_append,
        List.map_cons, List.map_nil, hloc2, List.append_assoc,
        List.singleton_append, List.nil_append]
      rfl
    · rw [hK, List.replicate_succ]
      have hk2 : ((arrayElemVar d en s idx).extractValue
          env.core).kind = VariableKind.indexed := by
        rw [(extractValue_projections _ _).2.2.1]; rfl
      simp only [stepChild, Variable.children, Option.getD, List.map_append,
        List.map_cons, List.map_nil, hk2, List.append_assoc,
        List.singleton_append, List.nil_append]
    · rw [hM, range'_cons]
      have hm2 : ((arrayElemVar d en s idx).extractValue
          env.core).memberIndex = some (idx : Int) := by
        rw [(extractValue_projections _ _).2.2.2]; rfl
      simp only [stepChild, Variable.children, Option.getD, List.map_append,
        List.map_cons, List.map_nil, hm2, List.append_assoc,
        List.singleton_append, List.nil_append]

/-- Claim C6 (amended): for an array-typed variable whose
`DW_TAG_subrange_type` child carries `Udata` bounds `lo < hi` (with
`hi` in `i64` range) and whose element type is a named base type of
byte size `s`, as long as `base + hi * s` fits in 64 bits the resolver
creates one child per index `i` in `[lo, hi)` named `__i` with kind
`Indexed`, member index `i` and memory location `base + i * s`, and the
parent's type name becomes `[ElemName;hi]`.  (When the multiplication
`i * s` itself overflows a `u64` it wraps silently — only the final
addition is overflow-checked; see the counterexample.) -/
theorem extractType_array_members (fuel : Nat) (env : DebugEnv)
    (u : UnitM) (off soff eoff r lo hi s : Nat) (en : String)
    (arngs srngs erngs : List (Nat × Nat)) (parentV childV : Variable)
    (fb pc : Nat)
    (hdie : u.dieAt r = some (elemDieOf eoff en s erngs))
    (hlo : lo < hi)
    (hhi : hi < 9223372036854775808)
    (hfit : childV.memoryLocation + hi * s < u64Mod)
    (hmem : childV.memberIndex = none)
    (hkids : childV.children = none)
    (hfuel : (hi - lo) + 13 ≤ fuel) :
    ∃ child',
      extractType fuel env u (arrDieOf off soff r lo hi arngs srngs)
        parentV childV fb pc = some (Except.ok child') ∧
      child'.typeName = "[" ++ en ++ ";" ++ toString (toI64 hi) ++ "]" ∧
      child'.memoryLocation = childV.memoryLocation ∧
      ((child'.children).getD []).map Variable.name =
        (List.range' lo (hi - lo)).map
          (fun (i : Nat) => "__" ++ toString (i : Int)) ∧
      ((child'.children).getD []).map Variable.memoryLocation =
        (List.range' lo (hi - lo)).map
          (fun (i : Nat) => childV.memoryLocation + i * s) ∧
      ((child'.children).getD []).map Variable.kind =
        List.replicate (hi - lo) VariableKind.indexed ∧
      ((child'.children).getD []).map Variable.memberIndex =
        (List.range' lo (hi - lo)).map
          (fun (i : Nat) => (some (i : Int) : Option Int)) := by
  obtain ⟨g, rfl⟩ : ∃ g, fuel = g + 7 + 1 := ⟨fuel - 8, by omega⟩
  obtain ⟨⟨n, tn, vl, k, inc, ml, bs, fi, li, mi, rl, ru, ro⟩, cc⟩ := childV
  replace hmem : mi = none := hmem
  subst hmem
  replace hkids : cc = none := hkids
  subst hkids
  replace hfit : ml + hi * s < u64Mod := hfit
  have htag : (arrDieOf off soff r lo hi arngs srngs).tag =
      DwTag.arrayType := rfl
  have hattr : (arrDieOf off soff r lo hi arngs srngs).attrGet
      DwAt.typeAttr = some (.unitRef r) := rfl
  have hnm : (arrDieOf off soff r lo hi arngs srngs).attrGet DwAt.name =
      none := rfl
  have hbsz : extractByteSize (arrDieOf off soff r lo hi arngs srngs) =
      0 := rfl
  simp only [extractType]
  simp only [htag, hattr, hnm, hbsz]
  rw [processTree_subrange g env u off soff r lo hi arngs srngs fb pc]
  simp only [obindE, subVarResult, Variable.withData, Variable.data,
    Variable.children, Variable.rangeLowerBound, Variable.rangeUpperBound]
  rw [toI64_ofNat lo (by omega), toI64_ofNat hi hhi]
  rw [if_neg (by rintro (h | h) <;> omega)]
  rw [show ((hi : Int) - (lo : Int)).toNat = hi - lo from by omega]
  obtain ⟨child', hEq, hTy, hLoc, hMi, hN, hL, hK, hM⟩ :=
    arrayMembers_loop_spec env u eoff s r en erngs ((hi : Nat) : Int) fb
      pc hdie (hi - lo) (g + 7) lo
      (Variable.mk ⟨n, "<unnamed type>", vl, k, inc, ml, 0, fi, li, none,
        (lo : Int), (hi : Int), ro⟩ none)
      (by omega) rfl (by omega)
      (by
        show ml + (lo + (hi - lo)) * s < u64Mod
        rw [show lo + (hi - lo) = hi from by omega]
        exact hfit)
  rw [if_neg (by omega)] at hTy
  refine ⟨child', hEq, hTy, hLoc, ?_, ?_, ?_, ?_⟩
  · simpa using hN
  · simpa using hL
  · simpa using hK
  · simpa using hM

theorem extractType_array_members_witness :
    ∃ child',
      extractType 16 envC6 unitC6 (arrDieOf 1 2 40 0 3 [] [])
        Variable.new childC6 0 0 = some (Except.ok child') ∧
      child'.typeName = "[" ++ "u16" ++ ";" ++ toString (toI64 3) ++ "]" ∧
      child'.memoryLocation = childC6.memoryLocation ∧
      ((child'.children).getD []).map Variable.name =
        (List.range' 0 (3 - 0)).map
          (fun (i : Nat) => "__" ++ toString (i : Int)) ∧
      ((child'.children).getD []).map Variable.memoryLocation =
        (List.range' 0 (3 - 0)).map
          (fun (i : Nat) => childC6.memoryLocation + i * 2) ∧
      ((child'.children).getD []).map Variable.kind =
        List.replicate (3 - 0) VariableKind.indexed ∧
      ((child'.children).getD []).map Variable.memberIndex =
        (List.range' 0 (3 - 0)).map
          (fun (i : Nat) => (some (i : Int) : Option Int)) :=
  extractType_array_members 16 envC6 unitC6 1 2 40 40 0 3 2 "u16" [] []
    [] Variable.new childC6 0 0 rfl (by decide) (by decide) (by decide)
    rfl rfl (by decide)

/-- Claim C8 counterexample: with no column supplied and two candidate
rows, the first candidate found has address 200, but the function
returns address 100 — the head of the list after sorting by (column,
address), not the first candidate. -/
theorem getBreakpointLocation_first_counterexample :
    collectBp envC8 "/a.c" 7 =
      [(200, ColumnTypeM.column 7), (100, ColumnTypeM.column 5)] ∧
    getBreakpointLocation envC8 "/a.c" 7 none = Except.ok (some 100) ∧
    (200 : Nat) ≠ 100 := by
  refine ⟨rfl, rfl, by decide⟩

theorem colLt_irrefl (a : ColumnTypeM) : colLt a a = false := by
  cases a <;> simp [colLt]

theorem colLt_trans (a b c : ColumnTypeM) (h1 : colLt a b = true)
    (h2 : colLt b c = true) : colLt a c = true := by
  cases a <;> cases b <;> cases c <;> simp_all [colLt] <;> omega

theorem bpLe_refl (a : Nat × ColumnTypeM) : bpLe a a :=
  Or.inr ⟨rfl, Nat.le_refl _⟩

theorem colLt_false_of_le_false (a b c : ColumnTypeM)
    (hab : colLt a b = true ∨ a = b) (hc : colLt c b = false) :
    colLt c a = false := by
  cases hca : colLt c a
  · rfl
  · rcases hab with hlt | rfl
    · have h2 := colLt_trans c a b hca hlt
      rw [hc] at h2
      exact Bool.noConfusion h2
    · rw [hca] at hc
      exact hc

theorem bpScan_spec (sc : ColumnTypeM) :
    ∀ (rest : List (Nat × ColumnTypeM)) (best : Nat × ColumnTypeM),
      List.Sorted bpLe (best :: rest) →
      (bpScan sc best rest ∈ best :: rest) ∧
      (colLt sc best.2 = false →
        colLt sc (bpScan sc best rest).2 = false ∧
        ∀ l ∈ best :: rest, colLt sc l.2 = false →
          colLt (bpScan sc best rest).2 l.2 = false ∧
          (l.2 = (bpScan sc best rest).2 →
            (bpScan sc best rest).1 ≤ l.1)) ∧
      (colLt sc best.2 = true → bpScan sc best rest = best) := by
  intro rest
  induction rest with
  | nil =>
    intro best _
    refine ⟨List.mem_cons_self _ _, ?_, fun _ => rfl⟩
    intro hE
    refine ⟨hE, ?_⟩
    intro l hl _
    rcases List.mem_cons.mp hl with hEq | h
    · rw [hEq]
      exact ⟨colLt_irrefl _, fun _ => Nat.le_refl _⟩
    · cases h
  | cons loc rest ih =>
    intro best hsorted
    rw [List.sorted_cons] at hsorted
    obtain ⟨hbestle, hsorted'⟩ := hsorted
    have hle_loc : bpLe best loc := hbestle loc (List.mem_cons_self _ _)
    by_cases hsc : colLt sc loc.2 = true
    · have hres : bpScan sc best (loc :: rest) = best := by
        simp [bpScan, hsc]
      have hinelig : ∀ m ∈ loc :: rest, colLt sc m.2 = true := by
        intro m hm
        rcases List.mem_cons.mp hm with hEq | h
        · rw [hEq]; exact hsc
        · rw [List.sorted_cons] at hsorted'
          rcases hsorted'.1 m h with hlt | ⟨heq, _⟩
          · exact colLt_trans _ _ _ hsc hlt
          · rw [← heq]; exact hsc
      rw [hres]
      refine ⟨List.mem_cons_self _ _, ?_, fun _ => rfl⟩
      intro hE
      refine ⟨hE, ?_⟩
      intro l hl hEl
      rcases List.mem_cons.mp hl with hEq | h
      · rw [hEq]
        exact ⟨colLt_irrefl _, fun _ => Nat.le_refl _⟩
      · rw [hinelig l h] at hEl
        exact Bool.noConfusion hEl
    · have hscF : colLt sc loc.2 = false := Bool.eq_false_iff.mpr hsc
      have hEbest : colLt sc best.2 = false := by
        refine colLt_false_of_le_false best.2 loc.2 sc ?_ hscF
        rcases hle_loc with hlt | ⟨heq, _⟩
        · exact Or.inl hlt
        · exact Or.inr heq
      by_cases hbl : colLt best.2 loc.2 = true
      · have hres : bpScan sc best (loc :: rest) = bpScan sc loc rest := by
          simp [bpScan, hscF, hbl]
        rw [hres]
        obtain ⟨ihMem, ihElig, _⟩ := ih loc hsorted'
        obtain ⟨ihE, ihMax⟩ := ihElig hscF
        refine ⟨List.mem_cons_of_mem _ ihMem, ?_, ?_⟩
        · intro _
          refine ⟨ihE, ?_⟩
          intro l hl hEl
          rcases List.mem_cons.mp hl with hEq | hlrest
          · rw [hEq]
            obtain ⟨hr1, _⟩ := ihMax loc (List.mem_cons_self _ _) hscF
            refine ⟨colLt_false_of_le_false best.2 loc.2 _ (Or.inl hbl)
              hr1, ?_⟩
            intro heq
            rw [heq] at hbl
            rw [hr1] at hbl
            exact Bool.noConfusion hbl
          · exact ihMax l hlrest hEl
        · intro hT
          rw [hEbest] at hT
          exact Bool.noConfusion hT
      · have hblF : colLt best.2 loc.2 = false := Bool.eq_false_iff.mpr hbl
        have hres : bpScan sc best (loc :: rest) = bpScan sc best rest := by
          simp [bpScan, hscF, hblF]
        rw [hres]
        have hsorted2 : List.Sorted bpLe (best :: rest) := by
          rw [List.sorted_cons]
          rw [List.sorted_cons] at hsorted'
          exact ⟨fun b hb => hbestle b (List.mem_cons_of_mem _ hb),
            hsorted'.2⟩
        obtain ⟨ihMem, ihElig, _⟩ := ih best hsorted2
        obtain ⟨ihE, ihMax⟩ := ihElig hEbest
        have heqc : best.2 = loc.2 ∧ best.1 ≤ loc.1 := by
          rcases hle_loc with hlt | hp
          · exact absurd hlt hbl
          · exact hp
        refine ⟨?_, ?_, ?_⟩
        · rcases List.mem_cons.mp ihMem with h | h
          · rw [h]
            exact List.mem_cons_self _ _
          · exact List.mem_cons_of_mem _ (List.mem_cons_of_mem _ h)
        · intro _
          refine ⟨ihE, ?_⟩
          intro l hl hEl
          rcases List.mem_cons.mp hl with hEq | hlrest
          · rw [hEq]
            exact ihMax best (List.mem_cons_self _ _) hEbest
          · rcases List.mem_cons.mp hlrest with hEq | h2
            · rw [hEq]
              obtain ⟨hc1, hc2⟩ := ihMax best (List.mem_cons_self _ _)
                hEbest
              refine ⟨by rw [← heqc.1]; exact hc1, ?_⟩
              intro heq
              have h3 := hc2 (heqc.1.trans heq)
              omega
            · exact ihMax l (List.mem_cons_of_mem _ h2) hEl
        · intro hT
          rw [hEbest] at hT
          exact Bool.noConfusion hT

/-- Claim C8 (amended): `get_breakpoint_location` collects the matching
line-program rows; with two or more candidates it first sorts them by
(column, address).  With no column supplied it returns the address of
the least candidate in that order — the head of the sorted list, not
the first candidate found.  With a column supplied it returns a
candidate that, whenever any candidate's column is ≤ the requested
column, has the greatest such column and, within that column, the least
address.  (When every candidate's column exceeds the requested column
it still returns the least candidate rather than none.) -/
theorem getBreakpointLocation_selection (env : DebugEnv) (path : String)
    (line : Nat) (a b : Nat × ColumnTypeM) (t : List (Nat × ColumnTypeM))
    (hlocs : collectBp env path line = a :: b :: t) :
    (∃ l, l ∈ a :: b :: t ∧
      getBreakpointLocation env path line none = Except.ok (some l.1) ∧
      ∀ m ∈ a :: b :: t, bpLe l m) ∧
    (∀ c : Nat, ∃ l, l ∈ a :: b :: t ∧
      getBreakpointLocation env path line (some c) =
        Except.ok (some l.1) ∧
      ∀ m ∈ a :: b :: t,
        colLt (if c = 0 then ColumnTypeM.leftEdge else
          ColumnTypeM.column c) m.2 = false →
        colLt (if c = 0 then ColumnTypeM.leftEdge else
          ColumnTypeM.column c) l.2 = false ∧
        colLt l.2 m.2 = false ∧
        (m.2 = l.2 → l.1 ≤ m.1)) := by
  have hperm := List.perm_insertionSort bpLe (a :: b :: t)
  have hsorted := List.sorted_insertionSort bpLe (a :: b :: t)
  obtain ⟨best, rest, hS⟩ : ∃ best rest,
      List.insertionSort bpLe (a :: b :: t) = best :: rest := by
    cases hS : List.insertionSort bpLe (a :: b :: t) with
    | nil =>
      have hlen := hperm.length_eq
      rw [hS] at hlen
      simp at hlen
    | cons x xs => exact ⟨x, xs, rfl⟩
  rw [hS] at hperm hsorted
  have hmin : ∀ m ∈ a :: b :: t, bpLe best m := by
    intro m hm
    have hm2 : m ∈ best :: rest := hperm.mem_iff.mpr hm
    rcases List.mem_cons.mp hm2 with hEq | h
    · rw [hEq]
      exact bpLe_refl _
    · rw [List.sorted_cons] at hsorted
      exact hsorted.1 m h
  constructor
  · refine ⟨best, hperm.mem_iff.mp (List.mem_cons_self _ _), ?_, hmin⟩
    simp only [getBreakpointLocation, hlocs, hS]
  · intro c
    obtain ⟨hmem, helig, _⟩ := bpScan_spec
      (if c = 0 then ColumnTypeM.leftEdge else ColumnTypeM.column c)
      rest best hsorted
    refine ⟨bpScan (if c = 0 then ColumnTypeM.leftEdge else
      ColumnTypeM.column c) best rest, hperm.mem_iff.mp hmem, ?_, ?_⟩
    · simp only [getBreakpointLocation, hlocs, hS]
    · intro m hm hEm
      have hEbest : colLt (if c = 0 then ColumnTypeM.leftEdge else
          ColumnTypeM.column c) best.2 = false := by
        refine colLt_false_of_le_false best.2 m.2 _ ?_ hEm
        rcases hmin m hm with hlt | ⟨heq, _⟩
        · exact Or.inl hlt
        · exact Or.inr heq
      obtain ⟨hEres, hMax⟩ := helig hEbest
      obtain ⟨h1, h2⟩ := hMax m (hperm.mem_iff.mpr hm) hEm
      exact ⟨hEres, h1, h2⟩

theorem getBreakpointLocation_selection_witness :
    (∃ l, l ∈ [((200 : Nat), ColumnTypeM.column 7),
        ((100 : Nat), ColumnTypeM.column 5)] ∧
      getBreakpointLocation envC8 "/a.c" 7 none = Except.ok (some l.1) ∧
      ∀ m ∈ [((200 : Nat), ColumnTypeM.column 7),
        ((100 : Nat), ColumnTypeM.column 5)], bpLe l m) ∧
    (∀ c : Nat, ∃ l, l ∈ [((200 : Nat), ColumnTypeM.column 7),
        ((100 : Nat), ColumnTypeM.column 5)] ∧
      getBreakpointLocation envC8 "/a.c" 7 (some c) =
        Except.ok (some l.1) ∧
      ∀ m ∈ [((200 : Nat), ColumnTypeM.column 7),
        ((100 : Nat), ColumnTypeM.column 5)],
        colLt (if c = 0 then ColumnTypeM.leftEdge else
          ColumnTypeM.column c) m.2 = false →
        colLt (if c = 0 then ColumnTypeM.leftEdge else
          ColumnTypeM.column c) l.2 = false ∧
        colLt l.2 m.2 = false ∧
        (m.2 = l.2 → l.1 ≤ m.1)) :=
  getBreakpointLocation_selection envC8 "/a.c" 7
    (200, ColumnTypeM.column 7) (100, ColumnTypeM.column 5) [] rfl
